import Mathlib

/-!
Verification development for the `spotokn` Spotify token service.

This file gives a shallow embedding, in Lean, of the parts of the TypeScript
source that the specification talks about:

* `TokenTracker` (src/services/token-tracker.ts): the per-key token map with
  lazy expiry and per-key scheduled-refresh timers;
* `LavaSrcTracker` (src/services/lavasrc-tracker.ts): the LavaSrc-compatible
  cache with a maximum size and oldest-first eviction;
* `Spotify` (src/services/spotify.ts): the service layer, including
  `getAuthenticatedToken`, `refreshAnonymousToken`, `waitForRefresh` and
  `recoverService`, plus an interleaving model of its event-loop concurrency;
* `TokenController` (src/controllers/token.ts): the HTTP-level response cache;
* `MutexLock` (src/utils/mutex.ts): the FIFO mutex with wait and hold timeouts.

JavaScript `Map`s are embedded as association lists preserving insertion order
(`Map.set` updates in place, keeping the original position; `Map.delete`
removes the entry).  Millisecond clock values are natural numbers; arithmetic
that can go negative in JS (`expiresAt - now - buffer`) is done in `Int`.
Asynchronous code is embedded either as explicit state-passing functions (one
call, sequential) or as a small-step interleaving machine whose atomic steps
are the code segments between `await` points (single-threaded event loop).
-/

namespace Spotokn

/-- `SpotifyToken` from src/types/types.ts.  `timestamp`, `cached` and `source`
are the optional metadata fields; a missing `timestamp` is `none`. -/
structure SpotifyToken where
  accessToken : String
  accessTokenExpirationTimestampMs : Nat
  clientId : String
  isAnonymous : Bool
  timestamp : Option Nat := none
  cached : Bool := false
  source : String := "anonymous"
deriving Repr, DecidableEq

/-- `ServiceState` from src/types/types.ts. -/
inductive ServiceState where
  | initializing | ready | refreshing | error | shutdown
deriving Repr, DecidableEq

/-- Insertion-ordered association list standing for a JS `Map`.  `set` on an
existing key updates the value in place (keeping the entry's position);
otherwise the new entry is appended, exactly as JS `Map.set`. -/
def mapSet {α : Type} : List (String × α) → String → α → List (String × α)
  | [], k, v => [(k, v)]
  | (k0, v0) :: rest, k, v =>
      if k0 = k then (k, v) :: rest else (k0, v0) :: mapSet rest k v

/-- `Map.get`: the value stored for `k`, if any. -/
def mapGet {α : Type} (m : List (String × α)) (k : String) : Option α :=
  (m.find? (fun p => p.1 = k)).map Prod.snd

/-- `Map.delete`: removes the entry for `k`. -/
def mapDelete {α : Type} (m : List (String × α)) (k : String) :
    List (String × α) :=
  m.filter (fun p => p.1 ≠ k)

/-- Keys of an embedded map. -/
def mapKeys {α : Type} (m : List (String × α)) : List String :=
  m.map Prod.fst

theorem mapSet_length_le {α : Type} (m : List (String × α)) (k : String)
    (v : α) : (mapSet m k v).length ≤ m.length + 1 := by
  induction m with
  | nil => simp [mapSet]
  | cons hd tl ih =>
      by_cases h : hd.1 = k
      · simp [mapSet, h]
      · simp only [mapSet, if_neg h, List.length_cons]
        omega

theorem length_le_mapSet_length {α : Type} (m : List (String × α)) (k : String)
    (v : α) : m.length ≤ (mapSet m k v).length := by
  induction m with
  | nil => simp [mapSet]
  | cons hd tl ih =>
      by_cases h : hd.1 = k
      · simp [mapSet, h]
      · simp only [mapSet, if_neg h, List.length_cons]
        omega

theorem mapKeys_mapSet {α : Type} (m : List (String × α)) (k : String)
    (v : α) :
    mapKeys (mapSet m k v) =
      if k ∈ mapKeys m then mapKeys m else mapKeys m ++ [k] := by
  induction m with
  | nil => simp [mapSet, mapKeys]
  | cons hd tl ih =>
      by_cases h : hd.1 = k
      · simp [mapSet, h, mapKeys]
      · have hne : ¬ k = hd.1 := fun hk => h hk.symm
        by_cases hm : k ∈ mapKeys tl <;>
          (simp only [mapKeys] at hm ih ⊢;
           simp [mapSet, if_neg h, hm, ih, List.mem_cons, hne])

theorem mapKeys_nodup_mapSet {α : Type} (m : List (String × α)) (k : String)
    (v : α) (h : (mapKeys m).Nodup) : (mapKeys (mapSet m k v)).Nodup := by
  rw [mapKeys_mapSet]
  by_cases hk : k ∈ mapKeys m
  · simpa [hk]
  · simpa [hk, List.nodup_append] using h

theorem mapGet_mapSet_self {α : Type} (m : List (String × α)) (k : String)
    (v : α) : mapGet (mapSet m k v) k = some v := by
  induction m with
  | nil => simp [mapSet, mapGet, List.find?]
  | cons hd tl ih =>
      by_cases h : hd.1 = k
      · simp [mapSet, h, mapGet, List.find?]
      · simp only [mapSet, if_neg h]
        simpa [mapGet, List.find?, h] using ih

theorem mapGet_mapSet_ne {α : Type} (m : List (String × α)) (k q : String)
    (v : α) (h : q ≠ k) : mapGet (mapSet m k v) q = mapGet m q := by
  induction m with
  | nil => simp [mapSet, mapGet, List.find?, Ne.symm h]
  | cons hd tl ih =>
      by_cases hk : hd.1 = k
      · subst hk
        simp [mapSet, mapGet, List.find?, Ne.symm h]
      · simp only [mapSet, if_neg hk]
        by_cases hq : hd.1 = q
        · simp [mapGet, List.find?, hq]
        · simpa [mapGet, List.find?, hq] using ih

theorem mapGet_mapDelete_self {α : Type} (m : List (String × α))
    (k : String) : mapGet (mapDelete m k) k = none := by
  induction m with
  | nil => simp [mapDelete, mapGet]
  | cons hd tl ih =>
      by_cases h : hd.1 = k
      · simp only [mapDelete, List.filter_cons] at ih ⊢
        simp [h]
        simp [mapDelete] at ih
        exact ih
      · simp only [mapDelete, List.filter_cons] at ih ⊢
        simp [mapGet, List.find?, h]

theorem mapKeys_mapDelete {α : Type} (m : List (String × α)) (k : String) :
    mapKeys (mapDelete m k) = (mapKeys m).filter (fun q => q ≠ k) := by
  induction m with
  | nil => simp [mapDelete, mapKeys]
  | cons hd tl ih =>
      by_cases h : hd.1 = k <;>
        simpa [mapDelete, mapKeys, h, List.filter] using ih

theorem filter_ne_length_of_nodup (l : List String) (k : String)
    (hnd : l.Nodup) (hmem : k ∈ l) :
    (l.filter (fun q => q ≠ k)).length + 1 = l.length := by
  induction l with
  | nil => cases hmem
  | cons a l ih =>
      rw [List.nodup_cons] at hnd
      rcases List.mem_cons.mp hmem with h | h
      · have hfix : l.filter (fun q => q ≠ k) = l := by
          apply List.filter_eq_self.mpr
          intro b hb
          simp only [ne_eq, decide_eq_true_eq]
          exact fun hbk => hnd.1 (h ▸ hbk ▸ hb)
        have hfix2 : List.filter (fun q => !decide (q = k)) l = l := by
          simpa [ne_eq, decide_not] using hfix
        simp [List.filter_cons, h.symm, hfix2]
      · have hne : a ≠ k := fun hak => hnd.1 (hak ▸ h)
        have := ih hnd.2 h
        simp only [List.filter_cons, ne_eq, hne, not_false_iff, decide_not,
          List.length_cons]
        simp only [decide_eq_true_eq] at *
        rw [if_pos (by simp [hne])]
        simpa using this

theorem mapDelete_length_of_mem {α : Type} (m : List (String × α))
    (k : String) (hnd : (mapKeys m).Nodup) (hmem : k ∈ mapKeys m) :
    (mapDelete m k).length + 1 = m.length := by
  have h1 : (mapDelete m k).length = (mapKeys (mapDelete m k)).length := by
    simp [mapKeys]
  have h2 : m.length = (mapKeys m).length := by simp [mapKeys]
  rw [h1, h2, mapKeys_mapDelete]
  exact filter_ne_length_of_nodup (mapKeys m) k hnd hmem

theorem mapDelete_length_le {α : Type} (m : List (String × α)) (k : String) :
    (mapDelete m k).length ≤ m.length :=
  List.length_filter_le _ m

/-- Deleting a key from the list of timer-holding keys (`Map.delete` on the
timers map; the list holds each key at most once by construction). -/
def removeKey : List String → String → List String
  | [], _ => []
  | a :: l, k => if a = k then removeKey l k else a :: removeKey l k

/-! ## TokenTracker (src/services/token-tracker.ts)

The tracker holds a `Map` of tokens and a `Map` of pending refresh timers.
We model timer handles by their keys: `refreshTimers` is the list of keys that
currently have a pending timer (the `Map` keys).  All operations take the
current clock `now` (the source reads `Date.now()`). -/

/-- `refreshBufferMs = 5 * 60 * 1000` (token-tracker.ts line 22). -/
def refreshBufferMs : Nat := 5 * 60 * 1000

/-- State of a `TokenTracker`. -/
structure TokenTracker where
  tokens : List (String × SpotifyToken)
  refreshTimers : List String
deriving Repr, DecidableEq

namespace TokenTracker

/-- The freshly constructed tracker. -/
def init : TokenTracker := ⟨[], []⟩

/-- `isTokenValid` (token-tracker.ts lines 105-115).  JS falsiness:
`!token.accessToken` is true for the empty string, and
`!token.accessTokenExpirationTimestampMs` is true for `0`. -/
def isTokenValid (now : Nat) (token : SpotifyToken) : Bool :=
  if token.accessToken = "" ∨ token.accessTokenExpirationTimestampMs = 0 then
    false
  else
    let isExpired := token.accessTokenExpirationTimestampMs ≤ now
    let isAboutToExpire :=
      token.accessTokenExpirationTimestampMs ≤ now + refreshBufferMs
    ¬ isExpired ∧ ¬ isAboutToExpire

/-- `clearRefreshTimer` (token-tracker.ts lines 150-156): `clearTimeout` plus
`refreshTimers.delete(key)`. -/
def clearRefreshTimer (key : String) (t : TokenTracker) : TokenTracker :=
  { t with refreshTimers := removeKey t.refreshTimers key }

/-- `scheduleRefresh` (token-tracker.ts lines 120-135): a timer is installed
only when `expiresAt - now - buffer > 0`; the subtraction is signed in JS. -/
def scheduleRefresh (now : Nat) (key : String) (token : SpotifyToken)
    (t : TokenTracker) : TokenTracker :=
  let timeUntilRefresh : Int :=
    (token.accessTokenExpirationTimestampMs : Int) - (now : Int) -
      (refreshBufferMs : Int)
  if 0 < timeUntilRefresh then
    { t with refreshTimers := t.refreshTimers ++ [key] }
  else t

/-- `storeToken` (token-tracker.ts lines 31-47): clear any existing timer for
the key, store the token, and schedule a refresh only for non-anonymous
tokens. -/
def storeToken (now : Nat) (key : String) (token : SpotifyToken)
    (t : TokenTracker) : TokenTracker :=
  let t1 := clearRefreshTimer key t
  let t2 := { t1 with tokens := mapSet t1.tokens key token }
  if token.isAnonymous then t2 else scheduleRefresh now key token t2

/-- `removeToken` (token-tracker.ts lines 79-83). -/
def removeToken (key : String) (t : TokenTracker) : TokenTracker :=
  let t1 := clearRefreshTimer key t
  { t1 with tokens := mapDelete t1.tokens key }

/-- `getToken` (token-tracker.ts lines 52-66): returns the stored token when
valid; an invalid stored token is removed (lazy expiry) and `null` returned. -/
def getToken (now : Nat) (key : String) (t : TokenTracker) :
    Option SpotifyToken × TokenTracker :=
  match mapGet t.tokens key with
  | none => (none, t)
  | some token =>
      if isTokenValid now token then (some token, t)
      else (none, removeToken key t)

end TokenTracker

theorem count_removeKey_self (l : List String) (k : String) :
    (removeKey l k).count k = 0 := by
  induction l with
  | nil => simp [removeKey]
  | cons a l ih =>
      by_cases ha : a = k
      · simp [removeKey, ha, ih]
      · simp [removeKey, ha, List.count_cons, ih, fun h : k = a => ha h.symm]

theorem count_removeKey_other (l : List String) (k q : String) (h : q ≠ k) :
    (removeKey l k).count q = l.count q := by
  induction l with
  | nil => simp [removeKey]
  | cons a l ih =>
      by_cases ha : a = k
      · subst ha
        simp [removeKey, List.count_cons, ih, h, Ne.symm h]
      · simp [removeKey, ha, List.count_cons, ih]

theorem not_mem_removeKey_self (l : List String) (k : String) :
    k ∉ removeKey l k := by
  intro hmem
  have := count_removeKey_self l k
  rw [List.count_eq_zero] at this
  exact this hmem

theorem mem_removeKey_other (l : List String) (k q : String) (h : q ≠ k) :
    q ∈ removeKey l k ↔ q ∈ l := by
  induction l with
  | nil => simp [removeKey]
  | cons a l ih =>
      by_cases ha : a = k
      · subst ha
        simp [removeKey, ih, List.mem_cons, h, Ne.symm h]
      · simp [removeKey, ha, ih, List.mem_cons]

theorem removeKey_length_le (l : List String) (k : String) :
    (removeKey l k).length ≤ l.length := by
  induction l with
  | nil => simp [removeKey]
  | cons a l ih =>
      by_cases ha : a = k
      · simp only [removeKey, if_pos ha, List.length_cons]
        omega
      · simp only [removeKey, if_neg ha, List.length_cons]
        omega

/-- Sample token used by witnesses: a stale stored token (expiry within the
buffer window of the sample clock). -/
def staleTok : SpotifyToken :=
  { accessToken := "stale", accessTokenExpirationTimestampMs := 1000000,
    clientId := "c1", isAnonymous := true }

/-- Sample token used by witnesses: a fresh non-anonymous token. -/
def authTok : SpotifyToken :=
  { accessToken := "auth", accessTokenExpirationTimestampMs := 4000000,
    clientId := "c2", isAnonymous := false }

/-- C2: `TokenTracker.getToken` returns `null` when the key is absent or the
stored token's `accessTokenExpirationTimestampMs` is within the five-minute
buffer of `now` (`expiresAtMs ≤ now + buffer`); in the stale case the entry
and its refresh timer are also removed; any token that is returned satisfies
`now + buffer < expiresAtMs` strictly. -/
theorem claim_C2_getToken_expiry (t : TokenTracker) (key : String)
    (now : Nat) :
    (mapGet t.tokens key = none → (TokenTracker.getToken now key t).1 = none) ∧
    (∀ tok, mapGet t.tokens key = some tok →
        tok.accessTokenExpirationTimestampMs ≤ now + refreshBufferMs →
        (TokenTracker.getToken now key t).1 = none ∧
        mapGet (TokenTracker.getToken now key t).2.tokens key = none ∧
        key ∉ (TokenTracker.getToken now key t).2.refreshTimers) ∧
    (∀ tok, (TokenTracker.getToken now key t).1 = some tok →
        now + refreshBufferMs < tok.accessTokenExpirationTimestampMs) := by
  refine ⟨?_, ?_, ?_⟩
  · intro h
    simp [TokenTracker.getToken, h]
  · intro tok hget hstale
    have hinvalid : TokenTracker.isTokenValid now tok = false := by
      by_cases hz : tok.accessToken = "" ∨
          tok.accessTokenExpirationTimestampMs = 0
      · simp [TokenTracker.isTokenValid, hz]
      · simp [TokenTracker.isTokenValid, hz, hstale]
    refine ⟨?_, ?_, ?_⟩
    · simp [TokenTracker.getToken, hget, hinvalid]
    · simp [TokenTracker.getToken, hget, hinvalid, TokenTracker.removeToken,
        TokenTracker.clearRefreshTimer, mapGet_mapDelete_self]
    · simp [TokenTracker.getToken, hget, hinvalid, TokenTracker.removeToken,
        TokenTracker.clearRefreshTimer, not_mem_removeKey_self]
  · intro tok h
    cases hget : mapGet t.tokens key with
    | none => simp [TokenTracker.getToken, hget] at h
    | some tok0 =>
        by_cases hv : TokenTracker.isTokenValid now tok0
        · simp only [TokenTracker.getToken, hget, hv, if_true] at h
          obtain rfl : tok0 = tok := by simpa using h
          simp only [TokenTracker.isTokenValid] at hv
          by_cases hz : tok0.accessToken = "" ∨
              tok0.accessTokenExpirationTimestampMs = 0
          · rw [if_pos hz] at hv; cases hv
          · rw [if_neg hz] at hv
            simp at hv
            omega
        · simp [TokenTracker.getToken, hget, hv] at h

/-- C8: `TokenTracker.storeToken` first cancels any existing refresh timer for
the key, then stores the token; a fresh timer is installed exactly when the
token is non-anonymous and `expiresAtMs - bufferMs - now > 0`; other keys'
timer counts are untouched, and the stored key ends with at most one pending
timer. -/
theorem claim_C8_storeToken_timer (t : TokenTracker) (key : String)
    (tok : SpotifyToken) (now : Nat) :
    ((TokenTracker.storeToken now key tok t).refreshTimers.count key ≤ 1) ∧
    (key ∈ (TokenTracker.storeToken now key tok t).refreshTimers ↔
       (tok.isAnonymous = false ∧
        now + refreshBufferMs < tok.accessTokenExpirationTimestampMs)) ∧
    (∀ q, q ≠ key →
       (TokenTracker.storeToken now key tok t).refreshTimers.count q =
         t.refreshTimers.count q) ∧
    mapGet (TokenTracker.storeToken now key tok t).tokens key = some tok := by
  have hcond : (0 < (tok.accessTokenExpirationTimestampMs : Int) -
      (now : Int) - (refreshBufferMs : Int)) ↔
      (now + refreshBufferMs < tok.accessTokenExpirationTimestampMs) := by
    omega
  by_cases ha : tok.isAnonymous
  · refine ⟨?_, ?_, ?_, ?_⟩
    · simp [TokenTracker.storeToken, TokenTracker.clearRefreshTimer, ha,
        count_removeKey_self]
    · simp [TokenTracker.storeToken, TokenTracker.clearRefreshTimer, ha,
        not_mem_removeKey_self]
    · intro q hq
      simp [TokenTracker.storeToken, TokenTracker.clearRefreshTimer, ha,
        count_removeKey_other _ _ _ hq]
    · simp [TokenTracker.storeToken, TokenTracker.clearRefreshTimer, ha,
        mapGet_mapSet_self]
  · by_cases hc : now + refreshBufferMs < tok.accessTokenExpirationTimestampMs
    · refine ⟨?_, ?_, ?_, ?_⟩
      · simp [TokenTracker.storeToken, TokenTracker.clearRefreshTimer,
          TokenTracker.scheduleRefresh, ha, hcond.mpr hc, List.count_append,
          count_removeKey_self]
      · simp [TokenTracker.storeToken, TokenTracker.clearRefreshTimer,
          TokenTracker.scheduleRefresh, ha, hcond.mpr hc, hc]
      · intro q hq
        simp [TokenTracker.storeToken, TokenTracker.clearRefreshTimer,
          TokenTracker.scheduleRefresh, ha, hcond.mpr hc, List.count_append,
          count_removeKey_other _ _ _ hq, List.count_singleton, hq]
      · simp [TokenTracker.storeToken, TokenTracker.clearRefreshTimer,
          TokenTracker.scheduleRefresh, ha, hcond.mpr hc, mapGet_mapSet_self]
    · have hneg : ¬ (0 < (tok.accessTokenExpirationTimestampMs : Int) -
          (now : Int) - (refreshBufferMs : Int)) := fun h => hc (hcond.mp h)
      refine ⟨?_, ?_, ?_, ?_⟩
      · simp [TokenTracker.storeToken, TokenTracker.clearRefreshTimer,
          TokenTracker.scheduleRefresh, ha, hneg, count_removeKey_self]
      · simp [TokenTracker.storeToken, TokenTracker.clearRefreshTimer,
          TokenTracker.scheduleRefresh, ha, hneg, not_mem_removeKey_self, hc]
      · intro q hq
        simp [TokenTracker.storeToken, TokenTracker.clearRefreshTimer,
          TokenTracker.scheduleRefresh, ha, hneg,
          count_removeKey_other _ _ _ hq]
      · simp [TokenTracker.storeToken, TokenTracker.clearRefreshTimer,
          TokenTracker.scheduleRefresh, ha, hneg, mapGet_mapSet_self]

/-- Witness for C2 at a concrete stale entry: the tracker holds `staleTok`
under key `k` with a pending timer; at clock `1000000` the lookup returns
`null` and evicts both the entry and the timer. -/
theorem claim_C2_getToken_expiry_witness :
    (TokenTracker.getToken 1000000 "k" ⟨[("k", staleTok)], ["k"]⟩).1 = none ∧
    mapGet (TokenTracker.getToken 1000000 "k"
      ⟨[("k", staleTok)], ["k"]⟩).2.tokens "k" = none ∧
    "k" ∉ (TokenTracker.getToken 1000000 "k"
      ⟨[("k", staleTok)], ["k"]⟩).2.refreshTimers :=
  (claim_C2_getToken_expiry ⟨[("k", staleTok)], ["k"]⟩ "k" 1000000).2.1
    staleTok (by rfl) (by decide)

/-! ## LavaSrcTracker (src/services/lavasrc-tracker.ts) -/

/-- JS `Math.round(d / q)` on exact integer inputs, for `q > 0`:
round-half-up, i.e. `⌊d/q + 1/2⌋`. -/
def jsRoundDiv (d : Int) (q : Int) : Int := Int.fdiv (2 * d + q) (2 * q)

/-- `LavaSrcToken` (lavasrc-tracker.ts lines 291-303). -/
structure LavaSrcToken where
  accessToken : String
  tokenType : String
  expiresIn : Int
  scope : String
  clientId : String
  isAnonymous : Bool
  expiresAt : Nat
  cached : Bool
  source : String
  timestamp : Nat
  requestId : Option String := none
deriving Repr, DecidableEq

/-- `Cookie` (src/types/types.ts), restricted to the fields the tracker
reads. -/
structure Cookie where
  name : String
  value : String
deriving Repr, DecidableEq

/-- `maxCacheSize = 100` (lavasrc-tracker.ts line 12). -/
def maxCacheSize : Nat := 100

/-- State of a `LavaSrcTracker`: the token map and the keys holding a pending
refresh timer. -/
structure LavaSrcTracker where
  tokens : List (String × LavaSrcToken)
  refreshTimers : List String
deriving Repr, DecidableEq

namespace LavaSrcTracker

/-- The freshly constructed tracker. -/
def init : LavaSrcTracker := ⟨[], []⟩

/-- `isTokenValid` (lavasrc-tracker.ts lines 204-214); `!token.accessToken`
holds for the empty string and `!token.expiresAt` for `0`. -/
def isTokenValid (now : Nat) (token : LavaSrcToken) : Bool :=
  if token.accessToken = "" ∨ token.expiresAt = 0 then false
  else
    let isExpired := token.expiresAt ≤ now
    let isAboutToExpire := token.expiresAt ≤ now + refreshBufferMs
    ¬ isExpired ∧ ¬ isAboutToExpire

/-- `hasSpDcCookie` (lavasrc-tracker.ts lines 219-221). -/
def hasSpDcCookie (cookies : Option (List Cookie)) : Bool :=
  match cookies with
  | none => false
  | some cs => cs.any (fun c => c.name = "sp_dc")

/-- `clearRefreshTimer` (lavasrc-tracker.ts lines 259-265). -/
def clearRefreshTimer (key : String) (t : LavaSrcTracker) : LavaSrcTracker :=
  { t with refreshTimers := removeKey t.refreshTimers key }

/-- `scheduleRefresh` (lavasrc-tracker.ts lines 226-241). -/
def scheduleRefresh (now : Nat) (key : String) (token : LavaSrcToken)
    (t : LavaSrcTracker) : LavaSrcTracker :=
  let timeUntilRefresh : Int :=
    (token.expiresAt : Int) - (now : Int) - (refreshBufferMs : Int)
  if 0 < timeUntilRefresh then
    { t with refreshTimers := t.refreshTimers ++ [key] }
  else t

/-- `removeToken` (lavasrc-tracker.ts lines 131-135). -/
def removeToken (key : String) (t : LavaSrcTracker) : LavaSrcTracker :=
  let t1 := clearRefreshTimer key t
  { t1 with tokens := mapDelete t1.tokens key }

/-- Ordering used by `cleanupCache`:
`entries.sort((a, b) => a[1].timestamp - b[1].timestamp)`. -/
def byTimestamp (a b : String × LavaSrcToken) : Prop :=
  a.2.timestamp ≤ b.2.timestamp

instance : DecidableRel byTimestamp := fun a b =>
  inferInstanceAs (Decidable (a.2.timestamp ≤ b.2.timestamp))

instance : IsTotal (String × LavaSrcToken) byTimestamp :=
  ⟨fun a b => Nat.le_total a.2.timestamp b.2.timestamp⟩

instance : IsTrans (String × LavaSrcToken) byTimestamp :=
  ⟨fun _ _ _ hab hbc => Nat.le_trans hab hbc⟩

/-- `cleanupCache` (lavasrc-tracker.ts lines 270-285): when the map exceeds
`maxCacheSize`, sort the entries by ascending stored-at timestamp (JS
`Array.prototype.sort` is stable; insertion sort is the matching stable
sort) and remove the first `size - maxCacheSize` of them. -/
def cleanupCache (t : LavaSrcTracker) : LavaSrcTracker :=
  if t.tokens.length ≤ maxCacheSize then t
  else
    let entries := t.tokens.insertionSort byTimestamp
    let toRemove := entries.take (t.tokens.length - maxCacheSize)
    toRemove.foldl (fun s p => removeToken p.1 s) t

/-- `storeToken` (lavasrc-tracker.ts lines 70-89): clear the old timer, store
the token, schedule a refresh for non-anonymous tokens, then clean up the
cache. -/
def storeToken (now : Nat) (key : String) (token : LavaSrcToken)
    (t : LavaSrcTracker) : LavaSrcTracker :=
  let t1 := clearRefreshTimer key t
  let t2 := { t1 with tokens := mapSet t1.tokens key token }
  let t3 := if token.isAnonymous then t2 else scheduleRefresh now key token t2
  cleanupCache t3

/-- `convertToLavaSrcToken` (lavasrc-tracker.ts lines 175-188). -/
def convertToLavaSrcToken (now : Nat) (token : SpotifyToken) : LavaSrcToken :=
  { accessToken := token.accessToken
    tokenType := "Bearer"
    expiresIn :=
      jsRoundDiv ((token.accessTokenExpirationTimestampMs : Int) - (now : Int))
        1000
    scope := "user-read-private user-read-email"
    clientId := token.clientId
    isAnonymous := token.isAnonymous
    expiresAt := token.accessTokenExpirationTimestampMs
    cached := token.cached
    source := token.source
    timestamp := now }

/-- `formatForLavaSrc` (lavasrc-tracker.ts lines 193-199). -/
def formatForLavaSrc (now : Nat) (token : LavaSrcToken) (requestId : String) :
    LavaSrcToken :=
  { token with requestId := some requestId, timestamp := now }

/-- `getToken` (lavasrc-tracker.ts lines 22-65).  The `tokenService.getToken`
call is an external async operation; its outcome is passed in as `svc`:
`none` when no token service was supplied, `some (.error ())` when the call
threw, and `some (.ok r)` when it returned `r` (`r = none` is JS `null`).
Returns the LavaSrc-formatted token (or `none` for JS `null`) and the updated
tracker state. -/
def getToken (now : Nat) (requestId : String)
    (cookies : Option (List Cookie))
    (svc : Option (Except Unit (Option SpotifyToken)))
    (t : LavaSrcTracker) : Option LavaSrcToken × LavaSrcTracker :=
  let hasSpDc := hasSpDcCookie cookies
  let tokenKey := if hasSpDc then "authenticated" else "anonymous"
  let cached := mapGet t.tokens tokenKey
  match cached with
  | some c =>
      if isTokenValid now c then (some (formatForLavaSrc now c requestId), t)
      else
        match svc with
        | some (.ok (some fresh)) =>
            let lavasrcToken := convertToLavaSrcToken now fresh
            let t2 := storeToken now tokenKey lavasrcToken t
            (some (formatForLavaSrc now lavasrcToken requestId), t2)
        | _ => (some (formatForLavaSrc now c requestId), t)
  | none =>
      match svc with
      | some (.ok (some fresh)) =>
          let lavasrcToken := convertToLavaSrcToken now fresh
          let t2 := storeToken now tokenKey lavasrcToken t
          (some (formatForLavaSrc now lavasrcToken requestId), t2)
      | _ => (none, t)

end LavaSrcTracker

/-- Well-formedness of the embedded token map: JS `Map` keys are unique. -/
def LavaSrcTracker.WFcache (t : LavaSrcTracker) : Prop :=
  (mapKeys t.tokens).Nodup

theorem foldlRemove_tokens (ks : List String) (st : LavaSrcTracker) :
    (ks.foldl (fun s k => LavaSrcTracker.removeToken k s) st).tokens
      = st.tokens.filter (fun p => decide (p.1 ∉ ks)) := by
  induction ks generalizing st with
  | nil => simp
  | cons k ks ih =>
      rw [List.foldl_cons, ih]
      have hrm : (LavaSrcTracker.removeToken k st).tokens
          = mapDelete st.tokens k := rfl
      rw [hrm, mapDelete, List.filter_filter]
      apply List.filter_congr
      intro p hp
      by_cases h1 : p.1 = k <;> by_cases h2 : p.1 ∈ ks <;>
        simp [h1, h2]

theorem foldlRemove_timers_mem (ks : List String) (st : LavaSrcTracker)
    (q : String) :
    (q ∈ (ks.foldl (fun s k => LavaSrcTracker.removeToken k s)
        st).refreshTimers) ↔ (q ∈ st.refreshTimers ∧ q ∉ ks) := by
  induction ks generalizing st with
  | nil => simp
  | cons k ks ih =>
      rw [List.foldl_cons, ih]
      have hrm : (LavaSrcTracker.removeToken k st).refreshTimers
          = removeKey st.refreshTimers k := rfl
      rw [hrm]
      by_cases hq : q = k
      · subst hq
        simp [not_mem_removeKey_self]
      · simp [mem_removeKey_other _ _ _ hq, hq]

theorem foldlRemove_length (ks : List String) (st : LavaSrcTracker)
    (hnd : ks.Nodup) (hwf : LavaSrcTracker.WFcache st)
    (hsub : ∀ k ∈ ks, k ∈ mapKeys st.tokens) :
    (ks.foldl (fun s k => LavaSrcTracker.removeToken k s)
        st).tokens.length + ks.length = st.tokens.length := by
  induction ks generalizing st with
  | nil => simp
  | cons k ks ih =>
      rw [List.foldl_cons]
      rw [List.nodup_cons] at hnd
      have hrm : (LavaSrcTracker.removeToken k st).tokens
          = mapDelete st.tokens k := rfl
      have hwf2 : LavaSrcTracker.WFcache (LavaSrcTracker.removeToken k st) := by
        unfold LavaSrcTracker.WFcache at *
        rw [hrm, mapKeys_mapDelete]
        exact hwf.filter _
      have hsub2 : ∀ q ∈ ks, q ∈ mapKeys (LavaSrcTracker.removeToken k st).tokens := by
        intro q hq
        rw [hrm, mapKeys_mapDelete, List.mem_filter]
        refine ⟨hsub q (List.mem_cons_of_mem _ hq), ?_⟩
        simp only [ne_eq, decide_eq_true_eq]
        exact fun hqk => hnd.1 (hqk ▸ hq)
      have hlen := mapDelete_length_of_mem st.tokens k hwf
        (hsub k (List.mem_cons_self k ks))
      have := ih (LavaSrcTracker.removeToken k st) hnd.2 hwf2 hsub2
      rw [hrm] at this
      simp only [List.length_cons]
      omega

theorem cleanupCache_tokens (st : LavaSrcTracker)
    (h : ¬ st.tokens.length ≤ maxCacheSize) :
    (LavaSrcTracker.cleanupCache st).tokens
      = st.tokens.filter (fun p => decide (p.1 ∉
          ((st.tokens.insertionSort LavaSrcTracker.byTimestamp).take
            (st.tokens.length - maxCacheSize)).map Prod.fst)) := by
  unfold LavaSrcTracker.cleanupCache
  rw [if_neg h]
  rw [← List.foldl_map Prod.fst (fun s k => LavaSrcTracker.removeToken k s)]
  exact foldlRemove_tokens _ st

theorem cleanupCache_timers_mem (st : LavaSrcTracker) (q : String)
    (h : ¬ st.tokens.length ≤ maxCacheSize) :
    (q ∈ (LavaSrcTracker.cleanupCache st).refreshTimers) ↔
      (q ∈ st.refreshTimers ∧ q ∉
        ((st.tokens.insertionSort LavaSrcTracker.byTimestamp).take
          (st.tokens.length - maxCacheSize)).map Prod.fst) := by
  unfold LavaSrcTracker.cleanupCache
  rw [if_neg h]
  rw [← List.foldl_map Prod.fst (fun s k => LavaSrcTracker.removeToken k s)]
  exact foldlRemove_timers_mem _ st q

theorem cleanupCache_length (st : LavaSrcTracker)
    (hwf : LavaSrcTracker.WFcache st) :
    (LavaSrcTracker.cleanupCache st).tokens.length
      = min st.tokens.length maxCacheSize := by
  by_cases h : st.tokens.length ≤ maxCacheSize
  · unfold LavaSrcTracker.cleanupCache
    rw [if_pos h]
    omega
  · have hperm := List.perm_insertionSort LavaSrcTracker.byTimestamp st.tokens
    have hkeysperm := hperm.map Prod.fst
    have hkeysnodup : ((st.tokens.insertionSort
        LavaSrcTracker.byTimestamp).map Prod.fst).Nodup :=
      (hkeysperm.nodup_iff).mpr hwf
    have hks : (((st.tokens.insertionSort LavaSrcTracker.byTimestamp).take
          (st.tokens.length - maxCacheSize)).map Prod.fst)
        = ((st.tokens.insertionSort LavaSrcTracker.byTimestamp).map
            Prod.fst).take (st.tokens.length - maxCacheSize) :=
      List.map_take _ _ _
    have hndks : (((st.tokens.insertionSort LavaSrcTracker.byTimestamp).take
          (st.tokens.length - maxCacheSize)).map Prod.fst).Nodup := by
      rw [hks]
      exact (List.take_sublist _ _).nodup hkeysnodup
    have hsubks : ∀ k ∈ ((st.tokens.insertionSort
          LavaSrcTracker.byTimestamp).take
          (st.tokens.length - maxCacheSize)).map Prod.fst,
        k ∈ mapKeys st.tokens := by
      intro k hk
      rw [hks] at hk
      have := List.take_subset _ _ hk
      exact (hkeysperm.mem_iff).mp this
    have hlensorted : (st.tokens.insertionSort
        LavaSrcTracker.byTimestamp).length = st.tokens.length :=
      hperm.length_eq
    have hfl := foldlRemove_length (((st.tokens.insertionSort
        LavaSrcTracker.byTimestamp).take
        (st.tokens.length - maxCacheSize)).map Prod.fst) st hndks hwf hsubks
    have hlen1 : ((((st.tokens.insertionSort LavaSrcTracker.byTimestamp).take
          (st.tokens.length - maxCacheSize)).map Prod.fst)).length
        = st.tokens.length - maxCacheSize := by
      rw [List.length_map, List.length_take]
      omega
    rw [hlen1] at hfl
    unfold LavaSrcTracker.cleanupCache
    rw [if_neg h]
    rw [← List.foldl_map Prod.fst (fun s k => LavaSrcTracker.removeToken k s)]
    omega

theorem cleanupCache_wf (st : LavaSrcTracker)
    (hwf : LavaSrcTracker.WFcache st) :
    LavaSrcTracker.WFcache (LavaSrcTracker.cleanupCache st) := by
  by_cases h : st.tokens.length ≤ maxCacheSize
  · unfold LavaSrcTracker.cleanupCache
    rw [if_pos h]
    exact hwf
  · unfold LavaSrcTracker.WFcache
    rw [cleanupCache_tokens st h]
    unfold LavaSrcTracker.WFcache at hwf
    unfold mapKeys at *
    exact (List.Sublist.nodup
      (List.Sublist.map Prod.fst (List.filter_sublist _))) hwf

theorem storeToken_eq_cleanup (now : Nat) (key : String) (tok : LavaSrcToken)
    (st : LavaSrcTracker) :
    LavaSrcTracker.storeToken now key tok st
      = LavaSrcTracker.cleanupCache
          ⟨mapSet st.tokens key tok,
            if tok.isAnonymous ∨
                ¬ (0 < (tok.expiresAt : Int) - (now : Int) -
                    (refreshBufferMs : Int)) then
              removeKey st.refreshTimers key
            else removeKey st.refreshTimers key ++ [key]⟩ := by
  unfold LavaSrcTracker.storeToken LavaSrcTracker.scheduleRefresh
    LavaSrcTracker.clearRefreshTimer
  by_cases ha : tok.isAnonymous
  · simp [ha]
  · by_cases hc : 0 < (tok.expiresAt : Int) - (now : Int) -
        (refreshBufferMs : Int) <;> simp [ha, hc]

theorem storeToken_wf_len (now : Nat) (key : String) (tok : LavaSrcToken)
    (st : LavaSrcTracker) (hwf : LavaSrcTracker.WFcache st) :
    LavaSrcTracker.WFcache (LavaSrcTracker.storeToken now key tok st) ∧
    (LavaSrcTracker.storeToken now key tok st).tokens.length
      ≤ maxCacheSize := by
  rw [storeToken_eq_cleanup]
  set tmrs := if tok.isAnonymous ∨
      ¬ (0 < (tok.expiresAt : Int) - (now : Int) - (refreshBufferMs : Int))
    then removeKey st.refreshTimers key
    else removeKey st.refreshTimers key ++ [key] with htmrs
  have hwfu : LavaSrcTracker.WFcache ⟨mapSet st.tokens key tok, tmrs⟩ :=
    mapKeys_nodup_mapSet st.tokens key tok hwf
  refine ⟨cleanupCache_wf _ hwfu, ?_⟩
  rw [cleanupCache_length _ hwfu]
  omega

theorem cleanupCache_evicts_oldest (st : LavaSrcTracker)
    (hwf : LavaSrcTracker.WFcache st) (e : String × LavaSrcToken)
    (he : e ∈ st.tokens)
    (hnot : e.1 ∉ mapKeys (LavaSrcTracker.cleanupCache st).tokens) :
    (∀ q ∈ (LavaSrcTracker.cleanupCache st).tokens,
        e.2.timestamp ≤ q.2.timestamp) ∧
    e.1 ∉ (LavaSrcTracker.cleanupCache st).refreshTimers := by
  by_cases h : st.tokens.length ≤ maxCacheSize
  · exfalso
    have hid : LavaSrcTracker.cleanupCache st = st := by
      unfold LavaSrcTracker.cleanupCache
      rw [if_pos h]
    rw [hid] at hnot
    exact hnot (List.mem_map_of_mem Prod.fst he)
  · have hperm := List.perm_insertionSort LavaSrcTracker.byTimestamp st.tokens
    have hsorted :=
      List.sorted_insertionSort LavaSrcTracker.byTimestamp st.tokens
    have htok := cleanupCache_tokens st h
    have htmr := cleanupCache_timers_mem st e.1 h
    set S := st.tokens.insertionSort LavaSrcTracker.byTimestamp with hS
    set n := st.tokens.length - maxCacheSize with hn
    have hwfmap : (st.tokens.map Prod.fst).Nodup := hwf
    have hks : e.1 ∈ (S.take n).map Prod.fst := by
      by_contra hx
      apply hnot
      rw [htok]
      unfold mapKeys
      exact List.mem_map_of_mem Prod.fst
        (List.mem_filter.mpr ⟨he, by simpa using hx⟩)
    obtain ⟨eb, hebtake, hebkey⟩ := List.mem_map.mp hks
    have hebS : eb ∈ S := List.take_subset _ _ hebtake
    have hebtokens : eb ∈ st.tokens := (hperm.mem_iff).mp hebS
    have hee : eb = e :=
      List.inj_on_of_nodup_map hwfmap hebtokens he hebkey
    have hetake : e ∈ S.take n := hee ▸ hebtake
    have hpw : List.Pairwise LavaSrcTracker.byTimestamp S := hsorted
    rw [← List.take_append_drop n S] at hpw
    obtain ⟨-, -, hcross⟩ := List.pairwise_append.mp hpw
    constructor
    · intro q hq
      rw [htok] at hq
      have hq2 := List.mem_filter.mp hq
      have hqtokens : q ∈ st.tokens := hq2.1
      have hqnotks : q.1 ∉ (S.take n).map Prod.fst := by
        simpa using hq2.2
      have hqS : q ∈ S := (hperm.mem_iff).mpr hqtokens
      have hqdrop : q ∈ S.drop n := by
        have hsplit : q ∈ S.take n ++ S.drop n := by
          rw [List.take_append_drop]
          exact hqS
        rcases List.mem_append.mp hsplit with h1 | h2
        · exact absurd (List.mem_map_of_mem Prod.fst h1) hqnotks
        · exact h2
      exact hcross e hetake q hqdrop
    · intro hmem
      rw [htmr] at hmem
      exact hmem.2 hks

/-- C7: after any sequence of `LavaSrcTracker.storeToken` calls the token
map holds at most `maxCacheSize` (100) entries; when eviction occurs the
evicted entries are exactly ones whose stored-at timestamp is no larger than
any surviving entry's, and each evicted key's pending refresh timer is
cancelled. -/
theorem claim_C7_cache_bound_eviction :
    (∀ ops : List (Nat × String × LavaSrcToken),
        (ops.foldl
          (fun s op => LavaSrcTracker.storeToken op.1 op.2.1 op.2.2 s)
          LavaSrcTracker.init).tokens.length ≤ maxCacheSize) ∧
    (∀ st : LavaSrcTracker, LavaSrcTracker.WFcache st →
        ∀ e ∈ st.tokens,
          e.1 ∉ mapKeys (LavaSrcTracker.cleanupCache st).tokens →
          (∀ q ∈ (LavaSrcTracker.cleanupCache st).tokens,
              e.2.timestamp ≤ q.2.timestamp) ∧
          e.1 ∉ (LavaSrcTracker.cleanupCache st).refreshTimers) := by
  constructor
  · intro ops
    suffices h : ∀ st : LavaSrcTracker, LavaSrcTracker.WFcache st →
        st.tokens.length ≤ maxCacheSize →
        LavaSrcTracker.WFcache (ops.foldl
          (fun s op => LavaSrcTracker.storeToken op.1 op.2.1 op.2.2 s) st) ∧
        (ops.foldl
          (fun s op => LavaSrcTracker.storeToken op.1 op.2.1 op.2.2 s)
          st).tokens.length ≤ maxCacheSize by
      exact (h LavaSrcTracker.init
        (by simp [LavaSrcTracker.init, LavaSrcTracker.WFcache, mapKeys])
        (by simp [LavaSrcTracker.init])).2
    induction ops with
    | nil => intro st hwf hlen; exact ⟨hwf, hlen⟩
    | cons op ops ih =>
        intro st hwf hlen
        have h2 := storeToken_wf_len op.1 op.2.1 op.2.2 st hwf
        exact ih _ h2.1 h2.2
  · intro st hwf e he hnot
    exact cleanupCache_evicts_oldest st hwf e he hnot

/-! ## Spotify service (src/services/spotify.ts), sequential embedding

The mutable fields of the `Spotify` class that the specified behaviour reads
or writes.  `browser.getToken` is the external Fetcher; its outcome for one
call is passed in as `fetch : Except Unit SpotifyToken` (`.error` = the
promise rejected).  The methods below embed one complete sequential
execution of the corresponding source method (no interleaving; the
interleaved small-step semantics follows later). -/

structure SpotifyState where
  anonymousToken : Option SpotifyToken
  authenticatedToken : Option SpotifyToken
  tokenTracker : TokenTracker
  serviceState : ServiceState
  isRefreshing : Bool
  lastRefreshTime : Nat
  refreshCount : Nat
  errorCount : Nat
deriving Repr, DecidableEq

namespace Spotify

/-- `getAuthenticatedToken` (spotify.ts lines 289-318): always fetches fresh;
stores the token when it is non-anonymous; on a rejected fetch the `catch`
block increments the error counter and returns `null` — it does not
rethrow. -/
def getAuthenticatedToken (now : Nat) (fetch : Except Unit SpotifyToken)
    (st : SpotifyState) : Option SpotifyToken × SpotifyState :=
  match fetch with
  | .ok token =>
      if token.isAnonymous = false then
        (some token,
          { st with
              authenticatedToken := some token
              tokenTracker :=
                TokenTracker.storeToken now "authenticated" token
                  st.tokenTracker
              lastRefreshTime := now
              refreshCount := st.refreshCount + 1 })
      else (some token, st)
  | .error _ => (none, { st with errorCount := st.errorCount + 1 })

/-- `refreshAnonymousToken` (spotify.ts lines 355-395), one sequential
execution.  When `isRefreshing` is already set the method waits
(`waitForRefresh`) and returns the then-current `anonymousToken`; in this
single-caller embedding no other task can clear the flag, so that is the
field's current value.  Otherwise the flag is set, the fetch runs, and the
`finally` clears the flag; a rejected fetch is caught: error counter
incremented, state `error`, result `null`. -/
def refreshAnonymousToken (now : Nat) (fetch : Except Unit SpotifyToken)
    (st : SpotifyState) : Option SpotifyToken × SpotifyState :=
  if st.isRefreshing then (st.anonymousToken, st)
  else
    let st1 := { st with isRefreshing := true,
                         serviceState := ServiceState.refreshing }
    match fetch with
    | .ok token =>
        if token.isAnonymous then
          (some token,
            { st1 with
                anonymousToken := some token
                tokenTracker :=
                  TokenTracker.storeToken now "anonymous" token
                    st1.tokenTracker
                lastRefreshTime := now
                refreshCount := st1.refreshCount + 1
                serviceState := ServiceState.ready
                isRefreshing := false })
        else (some token, { st1 with isRefreshing := false })
    | .error _ =>
        (none, { st1 with
            errorCount := st1.errorCount + 1
            serviceState := ServiceState.error
            isRefreshing := false })

/-- `recoverService` (spotify.ts lines 469-496): set state `initializing`,
probe (and possibly recreate) the browser, run one anonymous refresh, then
succeed iff the `anonymousToken` field is non-null — setting `ready` — and
otherwise throw, which the `catch` turns into state `error` plus a rethrow
(`.error ()`).  The browser probe result only affects the browser resource,
not the token state. -/
def recoverService (now : Nat) (_browserHealthy : Bool)
    (fetch : Except Unit SpotifyToken) (st : SpotifyState) :
    Except Unit Unit × SpotifyState :=
  let st1 := { st with serviceState := ServiceState.initializing }
  let st2 := (refreshAnonymousToken now fetch st1).2
  if st2.anonymousToken.isSome then
    (.ok (), { st2 with serviceState := ServiceState.ready })
  else
    (.error (), { st2 with serviceState := ServiceState.error })

end Spotify

/-- Sample state: no tokens cached, no errors, service ready. -/
def seqSt0 : SpotifyState :=
  { anonymousToken := none, authenticatedToken := none,
    tokenTracker := TokenTracker.init, serviceState := ServiceState.ready,
    isRefreshing := false, lastRefreshTime := 0, refreshCount := 0,
    errorCount := 0 }

/-- A stale cached authenticated-class LavaSrc token (expired long before
the sample clock 2000000). -/
def staleAuthLava : LavaSrcToken :=
  { accessToken := "sa", tokenType := "Bearer", expiresIn := 60,
    scope := "s", clientId := "c", isAnonymous := false, expiresAt := 1000,
    cached := false, source := "fresh", timestamp := 0 }

/-- A LavaSrc tracker holding only the stale authenticated entry. -/
def staleAuthTracker : LavaSrcTracker := ⟨[("authenticated", staleAuthLava)], []⟩

/-- The `sp_dc` cookie marking a request as authenticated-class. -/
def spDcCookie : Cookie := ⟨"sp_dc", "v"⟩

/-- Counterexample to C3: with a stale cached authenticated token and a
failing fetch, `LavaSrcTracker.getToken` for an `sp_dc` request returns the
stale authenticated token as a success instead of propagating the error, and
`Spotify.getAuthenticatedToken` swallows the rejection, returning `null`. -/
theorem claim_C3_counterexample :
    LavaSrcTracker.isTokenValid 2000000 staleAuthLava = false ∧
    (LavaSrcTracker.getToken 2000000 "r1" (some [spDcCookie])
        (some (.error ())) staleAuthTracker).1
      = some (LavaSrcTracker.formatForLavaSrc 2000000 staleAuthLava "r1") ∧
    (Spotify.getAuthenticatedToken 2000000 (.error ()) seqSt0).1 = none := by
  decide

/-- C3 (amended): when the fetch for an authenticated request fails,
`Spotify.getAuthenticatedToken` swallows the error — it returns `null` and
increments the error counter rather than propagating — and
`LavaSrcTracker.getToken` falls back to the cached token for the key (even a
stale one, and for the authenticated class as well as the anonymous class);
only when no cached entry exists does the failure surface as a `null`
result. -/
theorem claim_C3_auth_failure_swallowed (now : Nat) (rid : String)
    (st : SpotifyState) (t : LavaSrcTracker)
    (cookies : Option (List Cookie)) (cachedTok : LavaSrcToken) :
    ((Spotify.getAuthenticatedToken now (.error ()) st).1 = none ∧
     (Spotify.getAuthenticatedToken now (.error ()) st).2.errorCount
       = st.errorCount + 1) ∧
    (mapGet t.tokens
        (if LavaSrcTracker.hasSpDcCookie cookies then "authenticated"
         else "anonymous") = some cachedTok →
      (LavaSrcTracker.getToken now rid cookies (some (.error ())) t).1
        = some (LavaSrcTracker.formatForLavaSrc now cachedTok rid)) ∧
    (mapGet t.tokens
        (if LavaSrcTracker.hasSpDcCookie cookies then "authenticated"
         else "anonymous") = none →
      (LavaSrcTracker.getToken now rid cookies (some (.error ())) t).1
        = none) := by
  refine ⟨⟨rfl, rfl⟩, ?_, ?_⟩
  · intro hget
    by_cases hv : LavaSrcTracker.isTokenValid now cachedTok
    · simp [LavaSrcTracker.getToken, hget, hv]
    · simp [LavaSrcTracker.getToken, hget, hv]
  · intro hget
    simp [LavaSrcTracker.getToken, hget]

/-- Witness for the amended C3 at the concrete stale-authenticated state:
the failing fetch yields the stale cached token as the response. -/
theorem claim_C3_auth_failure_swallowed_witness :
    (LavaSrcTracker.getToken 2000000 "r1" (some [spDcCookie])
        (some (.error ())) staleAuthTracker).1
      = some (LavaSrcTracker.formatForLavaSrc 2000000 staleAuthLava "r1") :=
  (claim_C3_auth_failure_swallowed 2000000 "r1" seqSt0 staleAuthTracker
    (some [spDcCookie]) staleAuthLava).2.1 (by rfl)

/-- A pre-existing (stale) anonymous token left over from an earlier
refresh. -/
def oldAnonTok : SpotifyToken :=
  { accessToken := "old", accessTokenExpirationTimestampMs := 1000,
    clientId := "c", isAnonymous := true }

/-- Service state as `recoverService` would see it after repeated failures:
six accumulated errors, state `error`, but the anonymous token field still
holds the old token. -/
def recSt0 : SpotifyState :=
  { anonymousToken := some oldAnonTok, authenticatedToken := none,
    tokenTracker := TokenTracker.init, serviceState := ServiceState.error,
    isRefreshing := false, lastRefreshTime := 0, refreshCount := 0,
    errorCount := 6 }

/-- Counterexample to C9: the recovery refresh fails (`.error ()`), yet
`recoverService` returns success and sets state `ready` because the stale
pre-existing token still occupies the field, and the error counter ends at 7
— it is never reset on success nor is the failure propagated. -/
theorem claim_C9_counterexample :
    (Spotify.recoverService 5000 true (.error ()) recSt0).1 = .ok () ∧
    (Spotify.recoverService 5000 true (.error ()) recSt0).2.serviceState
      = ServiceState.ready ∧
    (Spotify.recoverService 5000 true (.error ()) recSt0).2.errorCount = 7 :=
  ⟨rfl, rfl, rfl⟩

/-- C9 (amended): `recoverService` attempts one anonymous refresh; it
reports success and sets state `ready` exactly when the `anonymousToken`
field is non-null afterwards — a pre-existing stale token satisfies this even
if the refresh failed; the cumulative error counter is never reset (and a
failed refresh leaves it incremented by one); only when no anonymous token is
present does it set state `error` and propagate the failure. -/
theorem claim_C9_recover_amended (now : Nat) (healthy : Bool)
    (fetch : Except Unit SpotifyToken) (st : SpotifyState)
    (hnr : st.isRefreshing = false) :
    ((Spotify.recoverService now healthy fetch st).1 = .ok () ↔
      (Spotify.recoverService now healthy fetch st).2.anonymousToken.isSome) ∧
    ((Spotify.recoverService now healthy fetch st).1 = .ok () →
      (Spotify.recoverService now healthy fetch st).2.serviceState
        = ServiceState.ready) ∧
    ((Spotify.recoverService now healthy fetch st).1 = .error () →
      (Spotify.recoverService now healthy fetch st).2.serviceState
        = ServiceState.error) ∧
    (st.errorCount ≤ (Spotify.recoverService now healthy fetch st).2.errorCount) ∧
    (fetch = .error () →
      (Spotify.recoverService now healthy fetch st).2.errorCount
        = st.errorCount + 1) ∧
    (∀ tok, fetch = .ok tok → tok.isAnonymous = true →
      (Spotify.recoverService now healthy fetch st).2.anonymousToken
        = some tok) := by
  cases fetch with
  | ok tok =>
      by_cases ha : tok.isAnonymous
      · refine ⟨?_, ?_, ?_, ?_, ?_, ?_⟩ <;>
          simp [Spotify.recoverService, Spotify.refreshAnonymousToken, hnr, ha]
      · refine ⟨?_, ?_, ?_, ?_, ?_, ?_⟩ <;>
          (cases hat : st.anonymousToken <;>
            simp [Spotify.recoverService, Spotify.refreshAnonymousToken,
              hnr, ha, hat])
  | error e =>
      refine ⟨?_, ?_, ?_, ?_, ?_, ?_⟩ <;>
        (cases hat : st.anonymousToken <;>
          simp [Spotify.recoverService, Spotify.refreshAnonymousToken,
            hnr, hat])

/-- Witness for the amended C9: at the concrete failed-recovery state the
call reports success, leaves state `ready`, and the counter is `6 + 1`. -/
theorem claim_C9_recover_amended_witness :
    ((Spotify.recoverService 5000 true (.error ()) recSt0).1 = .ok () ↔
      (Spotify.recoverService 5000 true (.error ())
        recSt0).2.anonymousToken.isSome) ∧
    (Spotify.recoverService 5000 true (.error ()) recSt0).2.errorCount
      = recSt0.errorCount + 1 :=
  ⟨(claim_C9_recover_amended 5000 true (.error ()) recSt0 (by rfl)).1,
   (claim_C9_recover_amended 5000 true (.error ()) recSt0 (by rfl)).2.2.2.2.1
     (by rfl)⟩

/-! ## MutexLock (src/utils/mutex.ts)

The mutex state machine.  Waiters are numbered.  JS function values are
modelled by identity: `lock()` pushes onto `pendingResolvers` a freshly
created wrapper closure (`(releaseCallback) => { clearTimeout(timeout);
resolve(releaseCallback); }`), while the wait-timeout callback searches the
array for the bare promise `resolve` function — a different object.  A
promise settles at most once: resolving or rejecting an already settled
promise is a no-op. -/

/-- Identity of a function value that can be compared against the
`pendingResolvers` array. -/
inductive QueueFn where
  | wrapperOf (id : Nat)
  | resolveOf (id : Nat)
deriving Repr, DecidableEq

/-- The waiter id a queued resolver belongs to. -/
def QueueFn.waiter : QueueFn → Nat
  | .wrapperOf id => id
  | .resolveOf id => id

/-- Settlement state of one caller's `lock()` promise. -/
inductive WaiterOutcome where
  | pending
  | grantedLock
  | grantedNoop
  | rejectedTimeout
deriving Repr, DecidableEq

/-- State of a `MutexLock` (mutex.ts lines 172-182) together with the
settlement state of each caller's promise. -/
structure MutexLock where
  isLocked : Bool
  pendingResolvers : List QueueFn
  outcomes : Nat → WaiterOutcome

namespace MutexLock

/-- The freshly constructed mutex; no promises settled. -/
def mutexInit : MutexLock := ⟨false, [], fun _ => WaiterOutcome.pending⟩

/-- Settle waiter `id`'s promise with `o`; a no-op when already settled
(promises settle once). -/
def settle (f : Nat → WaiterOutcome) (id : Nat) (o : WaiterOutcome) :
    Nat → WaiterOutcome :=
  fun q => if q = id ∧ f id = WaiterOutcome.pending then o else f q

/-- `lock()` (mutex.ts lines 184-213): when locked, push the wrapper closure
for this waiter and leave its promise pending (its wait-timeout timer is
armed); when unlocked, take the lock — the caller's promise resolves
immediately with the release callback. -/
def lock (id : Nat) (m : MutexLock) : MutexLock :=
  if m.isLocked then
    { m with pendingResolvers :=
        m.pendingResolvers ++ [QueueFn.wrapperOf id] }
  else
    { m with isLocked := true,
             outcomes := settle m.outcomes id WaiterOutcome.grantedLock }

/-- The wait-timeout callback for waiter `id` (mutex.ts lines 187-193): it
computes `pendingResolvers.indexOf(resolve)` — but the array holds the
wrapper closures, never the bare `resolve` — splices only when the index is
found, then rejects the waiter's promise. -/
def waitTimeoutFire (id : Nat) (m : MutexLock) : MutexLock :=
  let idx := m.pendingResolvers.indexOf (QueueFn.resolveOf id)
  let queue :=
    if idx < m.pendingResolvers.length then m.pendingResolvers.eraseIdx idx
    else m.pendingResolvers
  { m with pendingResolvers := queue,
           outcomes := settle m.outcomes id WaiterOutcome.rejectedTimeout }

/-- The release callback (mutex.ts lines 215-229): clear the hold timer,
shift the next queued resolver and invoke it (resolving that waiter's
promise with a fresh release callback — a no-op if it already settled); with
an empty queue the mutex unlocks. -/
def release (m : MutexLock) : MutexLock :=
  match m.pendingResolvers with
  | [] => { m with isLocked := false }
  | item :: rest =>
      { m with pendingResolvers := rest,
               outcomes := settle m.outcomes item.waiter
                 WaiterOutcome.grantedLock }

/-- Drain the queue in order, resolving each still-pending waiter with the
no-op release function. -/
def drainNoop (f : Nat → WaiterOutcome) : List QueueFn → (Nat → WaiterOutcome)
  | [] => f
  | q :: rest => drainNoop (settle f q.waiter WaiterOutcome.grantedNoop) rest

/-- `forceRelease` (mutex.ts lines 231-242): unlock, then shift every queued
resolver and call it with a no-op release function — despite the comment
"Reject all pending resolvers", this resolves each still-pending promise. -/
def forceRelease (m : MutexLock) : MutexLock :=
  { m with isLocked := false,
           pendingResolvers := [],
           outcomes := drainNoop m.outcomes m.pendingResolvers }

/-- The hold-timeout timer body (mutex.ts lines 206-210). -/
def holdTimeoutFire (m : MutexLock) : MutexLock :=
  if m.isLocked then forceRelease m else m

/-- `k` successive invocations of the release callback (each successive
holder finishing). -/
def releaseN : Nat → MutexLock → MutexLock
  | 0, m => m
  | k + 1, m => releaseN k (release m)

end MutexLock

theorem releaseN_add_one (k : Nat) (m : MutexLock) :
    MutexLock.releaseN (k + 1) m
      = MutexLock.release (MutexLock.releaseN k m) := by
  induction k generalizing m with
  | zero => rfl
  | succ k ih =>
      show MutexLock.releaseN (k + 1) (MutexLock.release m) = _
      rw [ih]
      rfl

theorem releaseN_fifo (k : Nat) (ids : List Nat) (f : Nat → WaiterOutcome)
    (hnd : ids.Nodup) (hf : ∀ i ∈ ids, f i = WaiterOutcome.pending)
    (hk : k ≤ ids.length) :
    ((MutexLock.releaseN k
        ⟨true, ids.map QueueFn.wrapperOf, f⟩).isLocked = true) ∧
    ((MutexLock.releaseN k
        ⟨true, ids.map QueueFn.wrapperOf, f⟩).pendingResolvers
      = (ids.drop k).map QueueFn.wrapperOf) ∧
    (∀ i ∈ ids.take k, (MutexLock.releaseN k
        ⟨true, ids.map QueueFn.wrapperOf, f⟩).outcomes i
      = WaiterOutcome.grantedLock) ∧
    (∀ i ∈ ids.drop k, (MutexLock.releaseN k
        ⟨true, ids.map QueueFn.wrapperOf, f⟩).outcomes i = f i) ∧
    (∀ j, j ∉ ids → (MutexLock.releaseN k
        ⟨true, ids.map QueueFn.wrapperOf, f⟩).outcomes j = f j) := by
  induction k generalizing ids f with
  | zero =>
      refine ⟨rfl, rfl, ?_, ?_, ?_⟩
      · intro i hi
        simp at hi
      · intro i _
        rfl
      · intro j _
        rfl
  | succ k ih =>
      cases ids with
      | nil => simp at hk
      | cons a rest =>
          have hstep : MutexLock.release
              ⟨true, (a :: rest).map QueueFn.wrapperOf, f⟩
              = ⟨true, rest.map QueueFn.wrapperOf,
                  MutexLock.settle f a WaiterOutcome.grantedLock⟩ := by
            simp [MutexLock.release, QueueFn.waiter]
          rw [List.nodup_cons] at hnd
          have hfa : f a = WaiterOutcome.pending :=
            hf a (List.mem_cons_self a rest)
          have hf2a : MutexLock.settle f a WaiterOutcome.grantedLock a
              = WaiterOutcome.grantedLock := by
            simp [MutexLock.settle, hfa]
          have hf2rest : ∀ i ∈ rest,
              MutexLock.settle f a WaiterOutcome.grantedLock i
                = WaiterOutcome.pending := by
            intro i hi
            have hia : ¬ i = a := fun h => hnd.1 (h ▸ hi)
            simp [MutexLock.settle, hia]
            exact hf i (List.mem_cons_of_mem a hi)
          have hf2keep : ∀ i, ¬ i = a →
              MutexLock.settle f a WaiterOutcome.grantedLock i = f i := by
            intro i hia
            simp [MutexLock.settle, hia]
          have hk2 : k ≤ rest.length := by simpa using hk
          have IH := ih rest (MutexLock.settle f a WaiterOutcome.grantedLock)
            hnd.2 hf2rest hk2
          have hun : MutexLock.releaseN (k + 1)
              ⟨true, (a :: rest).map QueueFn.wrapperOf, f⟩
              = MutexLock.releaseN k
                  ⟨true, rest.map QueueFn.wrapperOf,
                    MutexLock.settle f a WaiterOutcome.grantedLock⟩ := by
            show MutexLock.releaseN k (MutexLock.release _) = _
            rw [hstep]
          refine ⟨?_, ?_, ?_, ?_, ?_⟩
          · rw [hun]; exact IH.1
          · rw [hun, List.drop_succ_cons]; exact IH.2.1
          · intro i hi
            rw [List.take_succ_cons] at hi
            rw [hun]
            rcases List.mem_cons.mp hi with h | h
            · subst h
              rw [IH.2.2.2.2 i hnd.1]
              exact hf2a
            · exact IH.2.2.1 i h
          · intro i hi
            rw [List.drop_succ_cons] at hi
            rw [hun, IH.2.2.2.1 i hi]
            exact hf2keep i (fun h => hnd.1 (h ▸ List.drop_subset k rest hi))
          · intro j hj
            have hja : ¬ j = a := fun h => hj (h ▸ List.mem_cons_self a rest)
            have hjrest : j ∉ rest := fun h => hj (List.mem_cons_of_mem a h)
            rw [hun, IH.2.2.2.2 j hjrest]
            exact hf2keep j hja

/-- C5: the release callback serves queued waiters in strict FIFO order:
starting from a held lock with waiters `ids` queued in arrival order, after
`k` releases exactly the first `k` waiters have been granted the lock — in
arrival order, with no other waiter's promise touched — the remaining
waiters are still queued in order, and once the queue is empty a further
release returns the mutex to unlocked. -/
theorem claim_C5_fifo (ids : List Nat) (hnd : ids.Nodup) (k : Nat)
    (hk : k ≤ ids.length) :
    ((MutexLock.releaseN k
        ⟨true, ids.map QueueFn.wrapperOf,
          fun _ => WaiterOutcome.pending⟩).pendingResolvers
      = (ids.drop k).map QueueFn.wrapperOf) ∧
    (∀ i ∈ ids.take k, (MutexLock.releaseN k
        ⟨true, ids.map QueueFn.wrapperOf,
          fun _ => WaiterOutcome.pending⟩).outcomes i
      = WaiterOutcome.grantedLock) ∧
    (∀ i ∈ ids.drop k, (MutexLock.releaseN k
        ⟨true, ids.map QueueFn.wrapperOf,
          fun _ => WaiterOutcome.pending⟩).outcomes i
      = WaiterOutcome.pending) ∧
    ((MutexLock.releaseN k
        ⟨true, ids.map QueueFn.wrapperOf,
          fun _ => WaiterOutcome.pending⟩).isLocked = true) ∧
    ((MutexLock.releaseN (ids.length + 1)
        ⟨true, ids.map QueueFn.wrapperOf,
          fun _ => WaiterOutcome.pending⟩).isLocked = false) := by
  have base := releaseN_fifo k ids (fun _ => WaiterOutcome.pending) hnd
    (fun _ _ => rfl) hk
  refine ⟨base.2.1, base.2.2.1, base.2.2.2.1, base.1, ?_⟩
  have full := releaseN_fifo ids.length ids (fun _ => WaiterOutcome.pending)
    hnd (fun _ _ => rfl) (le_refl _)
  rw [releaseN_add_one, MutexLock.release]
  have hq := full.2.1
  simp only [List.drop_length, List.map_nil] at hq
  rw [hq]

/-- Witness for C5 at `ids = [5, 6, 7]`, `k = 2`: waiter 6 (second in line)
has been granted after two releases, waiter 7 is still pending, and after
four releases the mutex is unlocked. -/
theorem claim_C5_fifo_witness :
    ((MutexLock.releaseN 2
        ⟨true, [5, 6, 7].map QueueFn.wrapperOf,
          fun _ => WaiterOutcome.pending⟩).outcomes 6
      = WaiterOutcome.grantedLock) ∧
    ((MutexLock.releaseN 2
        ⟨true, [5, 6, 7].map QueueFn.wrapperOf,
          fun _ => WaiterOutcome.pending⟩).outcomes 7
      = WaiterOutcome.pending) ∧
    ((MutexLock.releaseN ([5, 6, 7].length + 1)
        ⟨true, [5, 6, 7].map QueueFn.wrapperOf,
          fun _ => WaiterOutcome.pending⟩).isLocked = false) :=
  ⟨(claim_C5_fifo [5, 6, 7] (by decide) 2 (by decide)).2.1 6 (by decide),
   (claim_C5_fifo [5, 6, 7] (by decide) 2 (by decide)).2.2.1 7 (by decide),
   (claim_C5_fifo [5, 6, 7] (by decide) 2 (by decide)).2.2.2.2⟩

/-- C4 (evaluation of the failing input): holder 0 takes the lock and stays
silent past the hold timeout while waiter 1 is queued; `forceRelease` then
RESOLVES waiter 1's `lock()` promise with the no-op release function —
despite the code's own comment "Reject all pending resolvers" — so the
waiter proceeds as if granted instead of failing. -/
theorem claim_C4_forceRelease_resolves :
    ((MutexLock.holdTimeoutFire (MutexLock.lock 1 (MutexLock.lock 0
        MutexLock.mutexInit))).outcomes 1 = WaiterOutcome.grantedNoop) ∧
    ((MutexLock.holdTimeoutFire (MutexLock.lock 1 (MutexLock.lock 0
        MutexLock.mutexInit))).outcomes 1 ≠ WaiterOutcome.rejectedTimeout) ∧
    ((MutexLock.holdTimeoutFire (MutexLock.lock 1 (MutexLock.lock 0
        MutexLock.mutexInit))).isLocked = false) := by
  refine ⟨rfl, by decide, rfl⟩

/-- The mutex after: holder 0 locks, waiter 1 queues, waiter 1's
wait-timeout fires. -/
def mutexC6a : MutexLock :=
  MutexLock.waitTimeoutFire 1 (MutexLock.lock 1 (MutexLock.lock 0
    MutexLock.mutexInit))

/-- `mutexC6a` after waiter 2 queues and holder 0 releases. -/
def mutexC6b : MutexLock := MutexLock.release (MutexLock.lock 2 mutexC6a)

/-- C6 (evaluation of the failing input): waiter 1's wait timeout rejects
its promise, but `indexOf(resolve)` never finds the stored wrapper closure,
so the waiter is NOT removed from the queue; the holder's release then hands
the lock to the dead waiter 1, leaving the mutex locked with waiter 2 still
pending and queued — the timed-out waiter does affect the rest of the
queue, contrary to the claim. -/
theorem claim_C6_timeout_leaves_queue :
    (mutexC6a.outcomes 1 = WaiterOutcome.rejectedTimeout) ∧
    (mutexC6a.pendingResolvers = [QueueFn.wrapperOf 1]) ∧
    (mutexC6b.outcomes 2 = WaiterOutcome.pending) ∧
    (mutexC6b.pendingResolvers = [QueueFn.wrapperOf 2]) ∧
    (mutexC6b.isLocked = true) := by
  refine ⟨rfl, by decide, rfl, by decide, rfl⟩

/-! ## TokenController (src/controllers/token.ts) -/

/-- The snake_case LavaSrc response object produced by
`Spotify.getLavaSrcToken` and cached verbatim by the controller.  The
controller treats it as `any` and reads only `expires_in` (and
`is_anonymous` for logging); the field layout follows the repository's
LavaSrc integration guide. -/
structure LavaResponse where
  access_token : String
  token_type : String
  expires_in : Int
  scope : String
  client_id : String
  is_anonymous : Bool
  cached : Bool
  source : String
  timestamp : Nat
  request_id : String
deriving Repr, DecidableEq

namespace TokenController

/-- `handleMainTokenRequest` (token.ts lines 81-131).  `svc` is the outcome
of the `tokenService.getLavaSrcToken` call (`none` = JS `null`); the result
is `(response, new cache, service consulted?)` where a `none` response is the
503 error path.  The cache key depends only on whether an `sp_dc` cookie is
present; a cached entry hits when `cached.expires > Date.now()`; on a miss
the fresh token is cached until `now + expires_in * 1000` (falling back to
one hour when `expires_in` is falsy, i.e. `0`). -/
def handleMainTokenRequest (now : Nat) (cookies : Option (List Cookie))
    (svc : Option LavaResponse)
    (cache : List (String × (LavaResponse × Int))) :
    Option LavaResponse × List (String × (LavaResponse × Int)) × Bool :=
  let cookieArray : List Cookie := cookies.getD []
  let hasSpDc := cookieArray.any (fun c => c.name = "sp_dc")
  let cacheKey := if hasSpDc then "authenticated" else "anonymous"
  let cachedHit : Option LavaResponse :=
    match mapGet cache cacheKey with
    | some entry => if (now : Int) < entry.2 then some entry.1 else none
    | none => none
  match cachedHit with
  | some tok => (some tok, cache, false)
  | none =>
      match svc with
      | none => (none, cache, true)
      | some token =>
          let expires : Int :=
            if token.expires_in ≠ 0 then
              (now : Int) + token.expires_in * 1000
            else (now : Int) + 3600000
          (some token, mapSet cache cacheKey (token, expires), true)

end TokenController

/-- C10 (implicit): `TokenController.handleMainTokenRequest` caches whole
responses under just two keys chosen only by `sp_dc` presence, so a first
request carrying `sp_dc = v1` populates the `authenticated` slot and a second
request carrying any different `sp_dc = v2`, arriving while the entry is
unexpired, receives the first caller's token verbatim with the token service
not consulted. -/
theorem claim_C10_cookie_blind_cache (now1 now2 : Nat) (v1 v2 : String)
    (tok1 : LavaResponse) (svc2 : Option LavaResponse)
    (_hv : v1 ≠ v2)
    (hfresh : (now2 : Int) <
      (if tok1.expires_in ≠ 0 then (now1 : Int) + tok1.expires_in * 1000
       else (now1 : Int) + 3600000)) :
    (TokenController.handleMainTokenRequest now2 (some [⟨"sp_dc", v2⟩]) svc2
        (TokenController.handleMainTokenRequest now1 (some [⟨"sp_dc", v1⟩])
          (some tok1) []).2.1).1 = some tok1 ∧
    (TokenController.handleMainTokenRequest now2 (some [⟨"sp_dc", v2⟩]) svc2
        (TokenController.handleMainTokenRequest now1 (some [⟨"sp_dc", v1⟩])
          (some tok1) []).2.1).2.2 = false := by
  have h1 : (TokenController.handleMainTokenRequest now1
      (some [⟨"sp_dc", v1⟩]) (some tok1) []).2.1
      = [("authenticated",
          (tok1, if tok1.expires_in ≠ 0 then
              (now1 : Int) + tok1.expires_in * 1000
            else (now1 : Int) + 3600000))] := by
    by_cases hz : tok1.expires_in = 0 <;>
      simp [TokenController.handleMainTokenRequest, mapGet, mapSet,
        List.find?, hz]
  have hfresh2 : (now2 : Int) <
      (if tok1.expires_in = 0 then (now1 : Int) + 3600000
       else (now1 : Int) + tok1.expires_in * 1000) := by
    by_cases hz : tok1.expires_in = 0 <;> simpa [hz] using hfresh
  rw [h1]
  constructor <;>
    simp [TokenController.handleMainTokenRequest, mapGet, List.find?, hfresh2]

/-- The authenticated response returned to the first C10 caller. -/
def c10Tok : LavaResponse :=
  { access_token := "atk", token_type := "Bearer", expires_in := 3600,
    scope := "s", client_id := "c", is_anonymous := false, cached := false,
    source := "fresh", timestamp := 0, request_id := "r1" }

/-- Witness for C10: concrete pair of requests with `sp_dc` values "alice"
and "bob" one second apart; the second caller gets the first caller's
response verbatim without the service being consulted. -/
theorem claim_C10_cookie_blind_cache_witness :
    ("alice" : String) ≠ "bob" ∧
    (TokenController.handleMainTokenRequest 1000 (some [⟨"sp_dc", "bob"⟩])
        none
        (TokenController.handleMainTokenRequest 0 (some [⟨"sp_dc", "alice"⟩])
          (some c10Tok) []).2.1).1 = some c10Tok ∧
    (TokenController.handleMainTokenRequest 1000 (some [⟨"sp_dc", "bob"⟩])
        none
        (TokenController.handleMainTokenRequest 0 (some [⟨"sp_dc", "alice"⟩])
          (some c10Tok) []).2.1).2.2 = false :=
  ⟨by decide,
    (claim_C10_cookie_blind_cache 0 1000 "alice" "bob" c10Tok none
      (by decide) (by decide)).1,
    (claim_C10_cookie_blind_cache 0 1000 "alice" "bob" c10Tok none
      (by decide) (by decide)).2⟩

/-! ## Interleaved event-loop semantics of token requests (spotify.ts)

Bun/Node run JavaScript on a single-threaded event loop: code between two
`await` points executes atomically, and suspended tasks interleave only at
those points.  We model a population of concurrent requests as a small-step
machine.  Each anonymous request runs `refreshAnonymousToken` (spotify.ts
lines 355-395, with `waitForRefresh`, lines 459-467); each authenticated
request runs `getAuthenticatedToken` (lines 289-318).  A process's program
counter marks the await point it is suspended at; one scheduler event runs
one process's next atomic segment.  Each process carries the outcome its
`browser.getToken` call will produce if it fetches. -/

/-- Await points of one `refreshAnonymousToken` execution:
`entry` — about to run the first segment (flag check / flag set + fetch
start); `waiting a` — suspended in `waitForRefresh`'s 100 ms sleep having
completed `a` sleeps; `fetching` — suspended on `browser.getToken`;
`done r` — returned `r`. -/
inductive AnonPc where
  | entry
  | waiting (attempts : Nat)
  | fetching
  | done (result : Option SpotifyToken)
deriving Repr, DecidableEq

instance exceptDecEq {ε α : Type} [DecidableEq ε] [DecidableEq α] :
    DecidableEq (Except ε α) := fun x y => by
  cases x with
  | ok a =>
      cases y with
      | ok b => exact decidable_of_iff (a = b) (by simp)
      | error f => exact isFalse (fun h => by cases h)
  | error e =>
      cases y with
      | ok b => exact isFalse (fun h => by cases h)
      | error f => exact decidable_of_iff (e = f) (by simp)

/-- An anonymous-refresh process. -/
structure AnonProc where
  pc : AnonPc
  fetchResult : Except Unit SpotifyToken
deriving Repr, DecidableEq

/-- Await points of one `getAuthenticatedToken` execution. -/
inductive AuthPc where
  | entry
  | fetching
  | done (result : Option SpotifyToken)
deriving Repr, DecidableEq

/-- An authenticated-request process. -/
structure AuthProc where
  pc : AuthPc
  fetchResult : Except Unit SpotifyToken
deriving Repr, DecidableEq

/-- The shared `Spotify` instance state plus the process population and two
event counters: `anonFetchCount` / `authFetchCount` count the
`browser.getToken` invocations made from each path. -/
structure SpotifySys where
  isRefreshing : Bool
  anonymousToken : Option SpotifyToken
  authenticatedToken : Option SpotifyToken
  serviceState : ServiceState
  errorCount : Nat
  tokenTracker : TokenTracker
  now : Nat
  anonFetchCount : Nat
  authFetchCount : Nat
  anonProcs : List AnonProc
  authProcs : List AuthProc
deriving Repr, DecidableEq

/-- A scheduler event: run the next atomic segment of the given process. -/
inductive Ev where
  | anonStep (i : Nat)
  | authStep (i : Nat)
deriving Repr, DecidableEq

namespace Spotify

/-- One atomic segment of `refreshAnonymousToken` (spotify.ts 355-395).
`entry`: `if (this.isRefreshing) { await this.waitForRefresh(); ... }` else
set the flag, set state `refreshing`, and start the fetch — no await between
the check and the flag set, so the segment is atomic.  `waiting a`: one
100 ms sleep finishes, `attempts` becomes `a+1`, and the `while
(isRefreshing && attempts < 30)` condition is re-checked; on exit the method
returns the current `anonymousToken` field.  `fetching`: the fetch settles;
on a token: if anonymous, install it (field, tracker, state `ready`);
otherwise only warn; on rejection: count the error, state `error`, return
`null`; in all cases the `finally` clears `isRefreshing`. -/
def anonStepProc (sys : SpotifySys) (p : AnonProc) : AnonProc × SpotifySys :=
  match p.pc with
  | AnonPc.entry =>
      if sys.isRefreshing then ({ p with pc := AnonPc.waiting 0 }, sys)
      else
        ({ p with pc := AnonPc.fetching },
          { sys with isRefreshing := true,
                     serviceState := ServiceState.refreshing,
                     anonFetchCount := sys.anonFetchCount + 1 })
  | AnonPc.waiting a =>
      if sys.isRefreshing ∧ a + 1 < 30 then
        ({ p with pc := AnonPc.waiting (a + 1) }, sys)
      else ({ p with pc := AnonPc.done sys.anonymousToken }, sys)
  | AnonPc.fetching =>
      match p.fetchResult with
      | .ok tok =>
          if tok.isAnonymous then
            ({ p with pc := AnonPc.done (some tok) },
              { sys with
                  anonymousToken := some tok
                  tokenTracker := TokenTracker.storeToken sys.now
                    "anonymous" tok sys.tokenTracker
                  serviceState := ServiceState.ready
                  isRefreshing := false })
          else
            ({ p with pc := AnonPc.done (some tok) },
              { sys with isRefreshing := false })
      | .error _ =>
          ({ p with pc := AnonPc.done none },
            { sys with errorCount := sys.errorCount + 1,
                       serviceState := ServiceState.error,
                       isRefreshing := false })
  | AnonPc.done _ => (p, sys)

/-- One atomic segment of `getAuthenticatedToken` (spotify.ts 289-318):
`entry` starts `browser.getToken(cookies)` unconditionally — there is no
flag, cache check or mutex on this path; the completion installs the token
when it is non-anonymous, or counts the error and returns `null`. -/
def authStepProc (sys : SpotifySys) (p : AuthProc) : AuthProc × SpotifySys :=
  match p.pc with
  | AuthPc.entry =>
      ({ p with pc := AuthPc.fetching },
        { sys with authFetchCount := sys.authFetchCount + 1 })
  | AuthPc.fetching =>
      match p.fetchResult with
      | .ok tok =>
          if tok.isAnonymous = false then
            ({ p with pc := AuthPc.done (some tok) },
              { sys with
                  authenticatedToken := some tok
                  tokenTracker := TokenTracker.storeToken sys.now
                    "authenticated" tok sys.tokenTracker })
          else ({ p with pc := AuthPc.done (some tok) }, sys)
      | .error _ =>
          ({ p with pc := AuthPc.done none },
            { sys with errorCount := sys.errorCount + 1 })
  | AuthPc.done _ => (p, sys)

/-- One scheduler step; events naming absent processes are no-ops. -/
def step (sys : SpotifySys) : Ev → SpotifySys
  | Ev.anonStep i =>
      match sys.anonProcs[i]? with
      | none => sys
      | some p =>
          let r := anonStepProc sys p
          { r.2 with anonProcs := r.2.anonProcs.set i r.1 }
  | Ev.authStep i =>
      match sys.authProcs[i]? with
      | none => sys
      | some p =>
          let r := authStepProc sys p
          { r.2 with authProcs := r.2.authProcs.set i r.1 }

/-- Run a schedule. -/
def run (sys : SpotifySys) (tr : List Ev) : SpotifySys := tr.foldl step sys

/-- Number of anonymous-lane `browser.getToken` calls currently in flight. -/
def anonFetchingCount (sys : SpotifySys) : Nat :=
  sys.anonProcs.countP (fun p => p.pc = AnonPc.fetching)

/-- Number of authenticated-lane `browser.getToken` calls currently in
flight. -/
def authFetchingCount (sys : SpotifySys) : Nat :=
  sys.authProcs.countP (fun p => p.pc = AuthPc.fetching)

/-- Does this event complete an anonymous fetch (run the post-`getToken`
segment of a process suspended at `fetching`)? -/
def isAnonFetchStep (sys : SpotifySys) : Ev → Bool
  | Ev.anonStep i =>
      match sys.anonProcs[i]? with
      | some p => p.pc = AnonPc.fetching
      | none => false
  | Ev.authStep _ => false

/-- The schedule contains no anonymous fetch-completion step: all its events
happen while the (at most one) anonymous fetch is still in flight or before
it starts — one "refresh window". -/
def noAnonFetchStep : SpotifySys → List Ev → Bool
  | _, [] => true
  | sys, e :: tr => (!(isAnonFetchStep sys e)) && noAnonFetchStep (step sys e) tr

end Spotify

theorem countP_set {α : Type} (pr : α → Bool) (l : List α) (i : Nat)
    (p q : α) (hp : l[i]? = some p) :
    (l.set i q).countP pr + (if pr p then 1 else 0)
      = l.countP pr + (if pr q then 1 else 0) := by
  induction l generalizing i with
  | nil => simp at hp
  | cons a tl ih =>
      cases i with
      | zero =>
          simp only [List.getElem?_cons_zero, Option.some.injEq] at hp
          subst hp
          simp only [List.set, List.countP_cons]
          omega
      | succ i =>
          simp only [List.getElem?_cons_succ] at hp
          simp only [List.set, List.countP_cons]
          have := ih i hp
          omega

theorem step_authStep_anon (sys : SpotifySys) (i : Nat) :
    (Spotify.step sys (Ev.authStep i)).isRefreshing = sys.isRefreshing ∧
    (Spotify.step sys (Ev.authStep i)).anonProcs = sys.anonProcs ∧
    (Spotify.step sys (Ev.authStep i)).anonFetchCount
      = sys.anonFetchCount := by
  cases hl : sys.authProcs[i]? with
  | none => simp [Spotify.step, hl]
  | some p =>
      cases hpc : p.pc with
      | entry => simp [Spotify.step, hl, Spotify.authStepProc, hpc]
      | fetching =>
          cases hfr : p.fetchResult with
          | ok tok =>
              by_cases ha : tok.isAnonymous = false <;>
                simp [Spotify.step, hl, Spotify.authStepProc, hpc, hfr, ha]
          | error u =>
              simp [Spotify.step, hl, Spotify.authStepProc, hpc, hfr]
      | done r => simp [Spotify.step, hl, Spotify.authStepProc, hpc]

/-- Single-flight invariant of the anonymous lane: `isRefreshing` is set
exactly while one anonymous fetch is in flight. -/
def flightInv (sys : SpotifySys) : Prop :=
  (sys.isRefreshing = true → Spotify.anonFetchingCount sys = 1) ∧
  (sys.isRefreshing = false → Spotify.anonFetchingCount sys = 0)

theorem flightInv_step (sys : SpotifySys) (e : Ev) (h : flightInv sys) :
    flightInv (Spotify.step sys e) := by
  cases e with
  | authStep i =>
      have hs := step_authStep_anon sys i
      have hcnt : Spotify.anonFetchingCount (Spotify.step sys (Ev.authStep i))
          = Spotify.anonFetchingCount sys := by
        unfold Spotify.anonFetchingCount
        rw [hs.2.1]
      unfold flightInv at h ⊢
      rw [hs.1, hcnt]
      exact h
  | anonStep i =>
      cases hl : sys.anonProcs[i]? with
      | none => simpa [Spotify.step, hl] using h
      | some p =>
          cases hpc : p.pc with
          | entry =>
              by_cases hr : sys.isRefreshing
              · have hstep : Spotify.step sys (Ev.anonStep i)
                    = { sys with anonProcs := sys.anonProcs.set i ({ p with pc := AnonPc.waiting 0 }) } := by
                  simp [Spotify.step, hl, Spotify.anonStepProc, hpc, hr]
                have hc := countP_set (fun r => decide (r.pc = AnonPc.fetching))
                  sys.anonProcs i p ({ p with pc := AnonPc.waiting 0 }) hl
                simp only [hpc, decide_eq_true_eq] at hc
                rw [if_neg (by simp), if_neg (by simp)] at hc
                have hR : (Spotify.step sys (Ev.anonStep i)).isRefreshing
                    = sys.isRefreshing := by rw [hstep]
                have hC : Spotify.anonFetchingCount
                    (Spotify.step sys (Ev.anonStep i))
                    = Spotify.anonFetchingCount sys := by
                  unfold Spotify.anonFetchingCount
                  rw [hstep]
                  show (sys.anonProcs.set i ({ p with pc := AnonPc.waiting 0 })).countP
                      (fun r => decide (r.pc = AnonPc.fetching))
                    = sys.anonProcs.countP
                      (fun r => decide (r.pc = AnonPc.fetching))
                  omega
                unfold flightInv at h ⊢
                rw [hR, hC]
                exact h
              · have hstep : Spotify.step sys (Ev.anonStep i)
                    = { sys with
                          isRefreshing := true
                          serviceState := ServiceState.refreshing
                          anonFetchCount := sys.anonFetchCount + 1
                          anonProcs := sys.anonProcs.set i ({ p with pc := AnonPc.fetching }) } := by
                  simp [Spotify.step, hl, Spotify.anonStepProc, hpc, hr]
                have hc := countP_set (fun r => decide (r.pc = AnonPc.fetching))
                  sys.anonProcs i p ({ p with pc := AnonPc.fetching }) hl
                simp only [hpc, decide_eq_true_eq] at hc
                rw [if_neg (by simp), if_pos (by simp)] at hc
                have hz : Spotify.anonFetchingCount sys = 0 :=
                  h.2 (by simpa using hr)
                have hR : (Spotify.step sys (Ev.anonStep i)).isRefreshing
                    = true := by rw [hstep]
                have hC : Spotify.anonFetchingCount
                    (Spotify.step sys (Ev.anonStep i))
                    = Spotify.anonFetchingCount sys + 1 := by
                  unfold Spotify.anonFetchingCount
                  rw [hstep]
                  show (sys.anonProcs.set i ({ p with pc := AnonPc.fetching })).countP
                      (fun r => decide (r.pc = AnonPc.fetching))
                    = sys.anonProcs.countP
                      (fun r => decide (r.pc = AnonPc.fetching)) + 1
                  omega
                unfold flightInv
                rw [hR, hC, hz]
                exact ⟨fun _ => rfl, fun hf => by cases hf⟩
          | waiting a =>
              by_cases hw : sys.isRefreshing ∧ a + 1 < 30
              · have hstep : Spotify.step sys (Ev.anonStep i)
                    = { sys with anonProcs := sys.anonProcs.set i ({ p with pc := AnonPc.waiting (a + 1) }) } := by
                  simp [Spotify.step, hl, Spotify.anonStepProc, hpc, hw]
                have hc := countP_set (fun r => decide (r.pc = AnonPc.fetching))
                  sys.anonProcs i p ({ p with pc := AnonPc.waiting (a + 1) }) hl
                simp only [hpc, decide_eq_true_eq] at hc
                rw [if_neg (by simp), if_neg (by simp)] at hc
                have hR : (Spotify.step sys (Ev.anonStep i)).isRefreshing
                    = sys.isRefreshing := by rw [hstep]
                have hC : Spotify.anonFetchingCount
                    (Spotify.step sys (Ev.anonStep i))
                    = Spotify.anonFetchingCount sys := by
                  unfold Spotify.anonFetchingCount
                  rw [hstep]
                  show (sys.anonProcs.set i ({ p with pc := AnonPc.waiting (a + 1) })).countP
                      (fun r => decide (r.pc = AnonPc.fetching))
                    = sys.anonProcs.countP
                      (fun r => decide (r.pc = AnonPc.fetching))
                  omega
                unfold flightInv at h ⊢
                rw [hR, hC]
                exact h
              · have hstep : Spotify.step sys (Ev.anonStep i)
                    = { sys with anonProcs := sys.anonProcs.set i ({ p with pc := AnonPc.done sys.anonymousToken }) } := by
                  simp [Spotify.step, hl, Spotify.anonStepProc, hpc, hw]
                have hc := countP_set (fun r => decide (r.pc = AnonPc.fetching))
                  sys.anonProcs i p
                  ({ p with pc := AnonPc.done sys.anonymousToken }) hl
                simp only [hpc, decide_eq_true_eq] at hc
                rw [if_neg (by simp), if_neg (by simp)] at hc
                have hR : (Spotify.step sys (Ev.anonStep i)).isRefreshing
                    = sys.isRefreshing := by rw [hstep]
                have hC : Spotify.anonFetchingCount
                    (Spotify.step sys (Ev.anonStep i))
                    = Spotify.anonFetchingCount sys := by
                  unfold Spotify.anonFetchingCount
                  rw [hstep]
                  show (sys.anonProcs.set i ({ p with pc := AnonPc.done sys.anonymousToken })).countP
                      (fun r => decide (r.pc = AnonPc.fetching))
                    = sys.anonProcs.countP
                      (fun r => decide (r.pc = AnonPc.fetching))
                  omega
                unfold flightInv at h ⊢
                rw [hR, hC]
                exact h
          | fetching =>
              have hpos : 0 < Spotify.anonFetchingCount sys := by
                unfold Spotify.anonFetchingCount
                rw [List.countP_pos_iff]
                exact ⟨p, List.getElem?_mem hl, by simp [hpc]⟩
              have hrt : sys.isRefreshing = true := by
                by_contra hrf
                have := h.2 (by simpa using hrf)
                omega
              have hone := h.1 hrt
              have hclose : ∀ q : AnonProc, q.pc ≠ AnonPc.fetching →
                  Spotify.step sys (Ev.anonStep i)
                    = { Spotify.step sys (Ev.anonStep i) with
                          anonProcs := sys.anonProcs.set i q } →
                  (Spotify.step sys (Ev.anonStep i)).isRefreshing = false →
                  flightInv (Spotify.step sys (Ev.anonStep i)) := by
                intro q hq hsteps hRf
                have hc := countP_set (fun r => decide (r.pc = AnonPc.fetching))
                  sys.anonProcs i p q hl
                simp only [hpc, decide_eq_true_eq] at hc
                rw [if_pos (by simp), if_neg (by simpa using hq)] at hc
                have hC : Spotify.anonFetchingCount
                    (Spotify.step sys (Ev.anonStep i))
                    + 1 = Spotify.anonFetchingCount sys := by
                  unfold Spotify.anonFetchingCount
                  rw [hsteps]
                  show (sys.anonProcs.set i q).countP
                      (fun r => decide (r.pc = AnonPc.fetching)) + 1
                    = sys.anonProcs.countP
                      (fun r => decide (r.pc = AnonPc.fetching))
                  omega
                unfold flightInv
                rw [hRf]
                refine ⟨fun hf => ?_, fun _ => ?_⟩
                · cases hf
                · omega
              cases hfr : p.fetchResult with
              | ok tok =>
                  by_cases ha : tok.isAnonymous
                  · refine hclose ({ p with pc := AnonPc.done (some tok) })
                      (by simp) ?_ ?_
                    · simp [Spotify.step, hl, Spotify.anonStepProc, hpc,
                        hfr, ha]
                    · simp [Spotify.step, hl, Spotify.anonStepProc, hpc,
                        hfr, ha]
                  · refine hclose ({ p with pc := AnonPc.done (some tok) })
                      (by simp) ?_ ?_
                    · simp [Spotify.step, hl, Spotify.anonStepProc, hpc,
                        hfr, ha]
                    · simp [Spotify.step, hl, Spotify.anonStepProc, hpc,
                        hfr, ha]
              | error u =>
                  refine hclose ({ p with pc := AnonPc.done none })
                    (by simp) ?_ ?_
                  · simp [Spotify.step, hl, Spotify.anonStepProc, hpc, hfr]
                  · simp [Spotify.step, hl, Spotify.anonStepProc, hpc, hfr]
          | done r =>
              have hstep : Spotify.step sys (Ev.anonStep i)
                  = { sys with anonProcs := sys.anonProcs.set i p } := by
                simp [Spotify.step, hl, Spotify.anonStepProc, hpc]
              have hc := countP_set (fun r => decide (r.pc = AnonPc.fetching))
                sys.anonProcs i p p hl
              have hR : (Spotify.step sys (Ev.anonStep i)).isRefreshing
                  = sys.isRefreshing := by rw [hstep]
              have hC : Spotify.anonFetchingCount
                  (Spotify.step sys (Ev.anonStep i))
                  = Spotify.anonFetchingCount sys := by
                unfold Spotify.anonFetchingCount
                rw [hstep]
                show (sys.anonProcs.set i p).countP
                    (fun r => decide (r.pc = AnonPc.fetching))
                  = sys.anonProcs.countP
                    (fun r => decide (r.pc = AnonPc.fetching))
                omega
              unfold flightInv at h ⊢
              rw [hR, hC]
              exact h

theorem flightInv_run (sys : SpotifySys) (h : flightInv sys) (tr : List Ev) :
    flightInv (Spotify.run sys tr) := by
  induction tr generalizing sys with
  | nil => exact h
  | cons e tr ih => exact ih _ (flightInv_step sys e h)

/-- Invariant of the entry phase (before any anonymous fetch completes):
the fetch counter matches the flag, and once any process has run its first
segment the Fetcher has been invoked exactly once. -/
def entryInv (sys : SpotifySys) : Prop :=
  (sys.anonFetchCount = if sys.isRefreshing then 1 else 0) ∧
  ((∃ p ∈ sys.anonProcs, p.pc ≠ AnonPc.entry) → sys.anonFetchCount = 1)

/-- No process of the system is still before its first segment. -/
def noEntryState (sys : SpotifySys) : Prop :=
  ∀ p ∈ sys.anonProcs, p.pc ≠ AnonPc.entry

theorem anonStepProc_procs (sys : SpotifySys) (p : AnonProc) :
    (Spotify.anonStepProc sys p).2.anonProcs = sys.anonProcs := by
  unfold Spotify.anonStepProc
  cases hpc : p.pc with
  | entry => by_cases hr : sys.isRefreshing <;> simp [hr]
  | waiting a =>
      by_cases hw : sys.isRefreshing ∧ a + 1 < 30 <;> simp [hw]
  | fetching =>
      cases hfr : p.fetchResult with
      | ok tok => by_cases ha : tok.isAnonymous <;> simp [hfr, ha]
      | error u => simp [hfr]
  | done r => simp

theorem step_anonStep_eq (sys : SpotifySys) (i : Nat) (p : AnonProc)
    (hl : sys.anonProcs[i]? = some p) :
    Spotify.step sys (Ev.anonStep i)
      = { (Spotify.anonStepProc sys p).2 with
            anonProcs := sys.anonProcs.set i (Spotify.anonStepProc sys p).1 } := by
  simp [Spotify.step, hl, anonStepProc_procs]

theorem anonStepProc_nonentry (sys : SpotifySys) (p : AnonProc)
    (h : p.pc ≠ AnonPc.entry) :
    (Spotify.anonStepProc sys p).1.pc ≠ AnonPc.entry ∧
    (Spotify.anonStepProc sys p).2.anonFetchCount = sys.anonFetchCount := by
  unfold Spotify.anonStepProc
  cases hpc : p.pc with
  | entry => exact absurd hpc h
  | waiting a =>
      by_cases hw : sys.isRefreshing ∧ a + 1 < 30 <;> simp [hw]
  | fetching =>
      cases hfr : p.fetchResult with
      | ok tok => by_cases ha : tok.isAnonymous <;> simp [hfr, ha]
      | error u => simp [hfr]
  | done r => simp [hpc]

theorem noEntry_step (sys : SpotifySys) (e : Ev) (h : noEntryState sys) :
    noEntryState (Spotify.step sys e) ∧
    (Spotify.step sys e).anonFetchCount = sys.anonFetchCount := by
  cases e with
  | authStep i =>
      have hs := step_authStep_anon sys i
      constructor
      · unfold noEntryState
        rw [hs.2.1]
        exact h
      · exact hs.2.2
  | anonStep i =>
      cases hl : sys.anonProcs[i]? with
      | none =>
          constructor
          · unfold noEntryState
            simp only [Spotify.step, hl]
            exact h
          · simp [Spotify.step, hl]
      | some p =>
          have hp := h p (List.getElem?_mem hl)
          have hmain := anonStepProc_nonentry sys p hp
          constructor
          · intro q hq
            rw [step_anonStep_eq sys i p hl] at hq
            have hq2 : q ∈ sys.anonProcs.set i
                (Spotify.anonStepProc sys p).1 := hq
            rcases List.mem_or_eq_of_mem_set hq2 with hq3 | hq3
            · exact h q hq3
            · rw [hq3]
              exact hmain.1
          · rw [step_anonStep_eq sys i p hl]
            exact hmain.2

theorem noEntry_run (sys : SpotifySys) (tr : List Ev)
    (h : noEntryState sys) :
    noEntryState (Spotify.run sys tr) ∧
    (Spotify.run sys tr).anonFetchCount = sys.anonFetchCount := by
  induction tr generalizing sys with
  | nil => exact ⟨h, rfl⟩
  | cons e tr ih =>
      have hs := noEntry_step sys e h
      have := ih _ hs.1
      exact ⟨this.1, by rw [show Spotify.run sys (e :: tr)
        = Spotify.run (Spotify.step sys e) tr from rfl, this.2, hs.2]⟩

theorem entryInv_step (sys : SpotifySys) (e : Ev) (h : entryInv sys)
    (hnf : Spotify.isAnonFetchStep sys e = false) :
    entryInv (Spotify.step sys e) := by
  cases e with
  | authStep i =>
      have hs := step_authStep_anon sys i
      unfold entryInv at h ⊢
      rw [hs.1, hs.2.1, hs.2.2]
      exact h
  | anonStep i =>
      cases hl : sys.anonProcs[i]? with
      | none => simpa [Spotify.step, hl] using h
      | some p =>
          cases hpc : p.pc with
          | entry =>
              by_cases hr : sys.isRefreshing
              · have hone : sys.anonFetchCount = 1 := by
                  have := h.1
                  rw [if_pos hr] at this
                  exact this
                have hstep := step_anonStep_eq sys i p hl
                have hproc : Spotify.anonStepProc sys p
                    = ({ p with pc := AnonPc.waiting 0 }, sys) := by
                  simp [Spotify.anonStepProc, hpc, hr]
                rw [hproc] at hstep
                constructor
                · rw [hstep]
                  show sys.anonFetchCount = if sys.isRefreshing then 1 else 0
                  exact h.1
                · intro _
                  rw [hstep]
                  exact hone
              · have hzero : sys.anonFetchCount = 0 := by
                  have := h.1
                  rw [if_neg hr] at this
                  exact this
                have hstep := step_anonStep_eq sys i p hl
                have hproc : Spotify.anonStepProc sys p
                    = ({ p with pc := AnonPc.fetching },
                        { sys with isRefreshing := true,
                                   serviceState := ServiceState.refreshing,
                                   anonFetchCount := sys.anonFetchCount + 1 }) := by
                  simp [Spotify.anonStepProc, hpc, hr]
                rw [hproc] at hstep
                constructor
                · rw [hstep]
                  show sys.anonFetchCount + 1 = if true then 1 else 0
                  rw [hzero]
                  rfl
                · intro _
                  rw [hstep]
                  show sys.anonFetchCount + 1 = 1
                  rw [hzero]
          | waiting a =>
              have hex : sys.anonFetchCount = 1 :=
                h.2 ⟨p, List.getElem?_mem hl, by simp [hpc]⟩
              have hproc2 : (Spotify.anonStepProc sys p).2 = sys := by
                unfold Spotify.anonStepProc
                rw [hpc]
                by_cases hw : sys.isRefreshing ∧ a + 1 < 30 <;> simp [hw]
              constructor
              · rw [step_anonStep_eq sys i p hl]
                show (Spotify.anonStepProc sys p).2.anonFetchCount
                  = if (Spotify.anonStepProc sys p).2.isRefreshing then 1
                    else 0
                rw [hproc2]
                exact h.1
              · intro _
                rw [step_anonStep_eq sys i p hl]
                show (Spotify.anonStepProc sys p).2.anonFetchCount = 1
                rw [hproc2]
                exact hex
          | fetching =>
              exfalso
              have : Spotify.isAnonFetchStep sys (Ev.anonStep i) = true := by
                simp [Spotify.isAnonFetchStep, hl, hpc]
              rw [this] at hnf
              cases hnf
          | done r =>
              have hex : sys.anonFetchCount = 1 :=
                h.2 ⟨p, List.getElem?_mem hl, by simp [hpc]⟩
              have hmain := anonStepProc_nonentry sys p (by simp [hpc])
              have hproc : Spotify.anonStepProc sys p = (p, sys) := by
                simp [Spotify.anonStepProc, hpc]
              constructor
              · rw [step_anonStep_eq sys i p hl, hproc]
                exact h.1
              · intro _
                rw [step_anonStep_eq sys i p hl, hproc]
                exact hex

theorem entryInv_run_batch (sys : SpotifySys) (tr : List Ev)
    (h : entryInv sys) (hb : Spotify.noAnonFetchStep sys tr = true) :
    entryInv (Spotify.run sys tr) := by
  induction tr generalizing sys with
  | nil => exact h
  | cons e tr ih =>
      simp only [Spotify.noAnonFetchStep, Bool.and_eq_true,
        Bool.not_eq_true'] at hb
      exact ih _ (entryInv_step sys e h hb.1) hb.2

theorem step_anonProcs_length (sys : SpotifySys) (e : Ev) :
    (Spotify.step sys e).anonProcs.length = sys.anonProcs.length := by
  cases e with
  | authStep i => rw [(step_authStep_anon sys i).2.1]
  | anonStep i =>
      cases hl : sys.anonProcs[i]? with
      | none => simp [Spotify.step, hl]
      | some p =>
          rw [step_anonStep_eq sys i p hl]
          show (sys.anonProcs.set i (Spotify.anonStepProc sys p).1).length
            = sys.anonProcs.length
          exact List.length_set sys.anonProcs i _

theorem run_anonProcs_length (sys : SpotifySys) (tr : List Ev) :
    (Spotify.run sys tr).anonProcs.length = sys.anonProcs.length := by
  induction tr generalizing sys with
  | nil => rfl
  | cons e tr ih =>
      rw [show Spotify.run sys (e :: tr)
        = Spotify.run (Spotify.step sys e) tr from rfl, ih,
        step_anonProcs_length]

/-- C1 (amended, anonymous lane): starting with `isRefreshing` clear,
`n ≥ 1` anonymous refresh requests all at their entry point and no fetch yet
counted, for any schedule whose first phase `tr1` contains no
fetch-completion step and leaves every process past its entry segment (a
batch of concurrent callers within one refresh window), `browser.getToken`
has been invoked exactly once by the end of any continuation `tr2`; and
along every schedule at most one anonymous fetch is ever in flight. -/
theorem claim_C1_anon_single_flight (sys0 : SpotifySys)
    (h0 : sys0.isRefreshing = false)
    (hprocs : ∀ p ∈ sys0.anonProcs, p.pc = AnonPc.entry)
    (hne : sys0.anonProcs ≠ [])
    (hcnt : sys0.anonFetchCount = 0)
    (tr1 tr2 : List Ev)
    (hbatch : Spotify.noAnonFetchStep sys0 tr1 = true)
    (hall : ∀ p ∈ (Spotify.run sys0 tr1).anonProcs,
      p.pc ≠ AnonPc.entry) :
    (Spotify.run sys0 (tr1 ++ tr2)).anonFetchCount = 1 ∧
    (∀ tr : List Ev,
      Spotify.anonFetchingCount (Spotify.run sys0 tr) ≤ 1) := by
  have hfi0 : flightInv sys0 := by
    constructor
    · intro hr
      rw [h0] at hr
      cases hr
    · intro _
      unfold Spotify.anonFetchingCount
      rw [List.countP_eq_zero]
      intro p hp
      simp [hprocs p hp]
  have hei0 : entryInv sys0 := by
    constructor
    · rw [hcnt, h0]
      rfl
    · rintro ⟨p, hp, hne2⟩
      exact absurd (hprocs p hp) hne2
  have hei1 := entryInv_run_batch sys0 tr1 hei0 hbatch
  have hlen : (Spotify.run sys0 tr1).anonProcs ≠ [] := by
    intro hnil
    apply hne
    have := run_anonProcs_length sys0 tr1
    rw [hnil] at this
    exact List.eq_nil_of_length_eq_zero this.symm
  obtain ⟨p, hp⟩ := List.exists_mem_of_ne_nil _ hlen
  have hcount1 : (Spotify.run sys0 tr1).anonFetchCount = 1 :=
    hei1.2 ⟨p, hp, hall p hp⟩
  constructor
  · rw [show Spotify.run sys0 (tr1 ++ tr2)
      = Spotify.run (Spotify.run sys0 tr1) tr2 from List.foldl_append ..]
    rw [(noEntry_run (Spotify.run sys0 tr1) tr2 hall).2, hcount1]
  · intro tr
    have hfi := flightInv_run sys0 hfi0 tr
    by_cases hr : (Spotify.run sys0 tr).isRefreshing
    · rw [hfi.1 hr]
    · rw [hfi.2 (by simpa using hr)]
      omega

/-- First authenticated user's token. -/
def authTokA : SpotifyToken :=
  { accessToken := "uA", accessTokenExpirationTimestampMs := 9000000,
    clientId := "c", isAnonymous := false }

/-- Second authenticated user's token (a different value). -/
def authTokB : SpotifyToken :=
  { accessToken := "uB", accessTokenExpirationTimestampMs := 9000000,
    clientId := "c", isAnonymous := false }

/-- Two concurrent authenticated requests arriving at a quiet service. -/
def c1Sys0 : SpotifySys :=
  { isRefreshing := false, anonymousToken := none,
    authenticatedToken := none, serviceState := ServiceState.ready,
    errorCount := 0, tokenTracker := TokenTracker.init, now := 0,
    anonFetchCount := 0, authFetchCount := 0, anonProcs := [],
    authProcs := [⟨AuthPc.entry, .ok authTokA⟩,
                  ⟨AuthPc.entry, .ok authTokB⟩] }

/-- Counterexample to C1: two concurrent requests for the same cache key
(`authenticated`) run their entry segments before either fetch settles —
`getAuthenticatedToken` starts `browser.getToken` unconditionally — so TWO
Fetcher calls for the key are in flight simultaneously, the Fetcher is
invoked twice for the batch, and the two callers receive different token
values. -/
theorem claim_C1_counterexample :
    Spotify.authFetchingCount
      (Spotify.run c1Sys0 [Ev.authStep 0, Ev.authStep 1]) = 2 ∧
    (Spotify.run c1Sys0 [Ev.authStep 0, Ev.authStep 1]).authFetchCount
      = 2 ∧
    ((Spotify.run c1Sys0
        [Ev.authStep 0, Ev.authStep 1, Ev.authStep 0,
         Ev.authStep 1]).authProcs.map AuthProc.pc
      = [AuthPc.done (some authTokA), AuthPc.done (some authTokB)]) ∧
    authTokA ≠ authTokB := by
  decide

/-- An anonymous token for the single-flight witness. -/
def anonTokW : SpotifyToken :=
  { accessToken := "aW", accessTokenExpirationTimestampMs := 9000000,
    clientId := "c", isAnonymous := true }

/-- Two concurrent anonymous refresh requests at a quiet service. -/
def c1AnonSys0 : SpotifySys :=
  { isRefreshing := false, anonymousToken := none,
    authenticatedToken := none, serviceState := ServiceState.ready,
    errorCount := 0, tokenTracker := TokenTracker.init, now := 0,
    anonFetchCount := 0, authFetchCount := 0,
    anonProcs := [⟨AnonPc.entry, .ok anonTokW⟩,
                  ⟨AnonPc.entry, .ok anonTokW⟩],
    authProcs := [] }

/-- Witness for the amended C1: two concurrent anonymous refreshes; both run
their entry segments, then the fetch completes and the waiter wakes —
exactly one `browser.getToken` call in total, and never more than one in
flight. -/
theorem claim_C1_anon_single_flight_witness :
    (Spotify.run c1AnonSys0
      ([Ev.anonStep 0, Ev.anonStep 1]
        ++ [Ev.anonStep 0, Ev.anonStep 1])).anonFetchCount = 1 ∧
    Spotify.anonFetchingCount
      (Spotify.run c1AnonSys0 [Ev.anonStep 0, Ev.anonStep 1]) ≤ 1 :=
  ⟨(claim_C1_anon_single_flight c1AnonSys0 rfl (by decide) (by decide) rfl
      [Ev.anonStep 0, Ev.anonStep 1] [Ev.anonStep 0, Ev.anonStep 1]
      (by decide) (by decide)).1,
   (claim_C1_anon_single_flight c1AnonSys0 rfl (by decide) (by decide) rfl
      [Ev.anonStep 0, Ev.anonStep 1] [Ev.anonStep 0, Ev.anonStep 1]
      (by decide) (by decide)).2 [Ev.anonStep 0, Ev.anonStep 1]⟩

/-- A LavaSrc token with stored-at timestamp `i`, used to build a concrete
overfull cache. -/
def lavaTok (i : Nat) : LavaSrcToken :=
  { accessToken := "t", tokenType := "Bearer", expiresIn := 0, scope := "s",
    clientId := "c", isAnonymous := true, expiresAt := 10, cached := false,
    source := "fresh", timestamp := i }

/-- A tracker holding 101 entries (keys "0".."100", timestamps 0..100), with
pending timers for keys "0" and "50". -/
def bigTracker : LavaSrcTracker :=
  ⟨(List.range 101).map (fun i => (toString i, lavaTok i)), ["0", "50"]⟩

/-- Witness for C7: cleaning up the overfull 101-entry tracker evicts the
entry with the smallest timestamp (key "0"), every surviving entry has a
timestamp at least as large, and the evicted key's timer is cancelled. -/
theorem claim_C7_cache_bound_eviction_witness :
    (∀ q ∈ (LavaSrcTracker.cleanupCache bigTracker).tokens,
        ("0", lavaTok 0).2.timestamp ≤ q.2.timestamp) ∧
    ("0", lavaTok 0).1 ∉ (LavaSrcTracker.cleanupCache
      bigTracker).refreshTimers :=
  claim_C7_cache_bound_eviction.2 bigTracker
    (show (mapKeys bigTracker.tokens).Nodup by decide) ("0", lavaTok 0)
    (by decide) (by decide)

/-- Witness for C8 at a concrete call: storing a non-anonymous token under
`k` leaves the timer count of the unrelated key `other` unchanged. -/
theorem claim_C8_storeToken_timer_witness :
    (TokenTracker.storeToken 1000 "k" authTok
      ⟨[], ["other"]⟩).refreshTimers.count "other" =
      (["other"] : List String).count "other" :=
  (claim_C8_storeToken_timer ⟨[], ["other"]⟩ "k" authTok 1000).2.2.1 "other"
    (by decide)

end Spotokn
